import Mathlib

/-!
Verification of the LogicEducation propositional-logic engine.

A shallow embedding of the TypeScript source:
  * `src/lib/logic/types.ts`      — the `Formula` AST;
  * `src/lib/logic/evaluator.ts`  — `getVariables`, `evaluate`, `generateTruthTable`;
  * `src/lib/logic/analyzer.ts`   — `classifyFormula`, `isTautology`, `areEquivalent`,
                                    `formulaToString`, `getPrecedence`;
  * `src/lib/logic/normalForms.ts`— `eliminateImplications`, `pushNegationsInward`,
                                    `distributeOrOverAnd`, `distributeAndOverOr`,
                                    `toCNF`, `toDNF`, `toNNF`;
  * `src/lib/logic/parser.ts`     — the tokenizer and the recursive-descent `LogicParser`;
  * `src/lib/logic/grader.ts`     — `gradeSubmission` and the per-exercise-type graders.

Modelling conventions, stated once:
  * JavaScript objects used as string-keyed maps (`TruthAssignment`,
    `Record<string, boolean[]>`) become association lists; key lookup is
    `List.lookup`, and a missing key is `Option.none` (JS `undefined`).
  * JavaScript numbers appearing in grading scores are modelled exactly by
    `JSNum` (a rational together with the special values `NaN` and `±Infinity`),
    since the only arithmetic performed is division and `Math.max`, both exact.
    Loop counters and array indices are modelled as `Nat` (they are small
    integers, exactly representable).
  * Thrown exceptions become `Except String`; `try/catch` becomes a `match` on
    the `Except` value.  Error messages keep the source's message text but drop
    character positions.
  * `Array.prototype.sort()` (UTF-16 code-unit comparison) is modelled by
    sorting with the lexicographic order on the string's character list, which
    agrees with code-unit order on the ASCII variable names the parser admits.
-/

/-! ## Formula AST (types.ts) -/

inductive Connective
  | AND | OR | IMPLIES | IFF
deriving DecidableEq, Repr

inductive Formula
  | ATOM (value : String)
  | NOT (operand : Formula)
  | BINARY (operator : Connective) (left right : Formula)
deriving DecidableEq, Repr

/-! ## Evaluator (evaluator.ts) -/

/-- `TruthAssignment = Record<string, boolean>`: an association list; a key that
is absent maps to JS `undefined`. -/
abbrev TruthAssignment := List (String × Bool)

/-- `evaluate(formula, assignment)`.  `!!assignment[formula.value]` reads a
possibly missing key and coerces `undefined` to `false`. -/
def evaluate : Formula → TruthAssignment → Bool
  | .ATOM v, a => (a.lookup v).getD false
  | .NOT f, a => !(evaluate f a)
  | .BINARY op l r, a =>
    let left := evaluate l a
    let right := evaluate r a
    match op with
    | .AND => left && right
    | .OR => left || right
    | .IMPLIES => !left || right
    | .IFF => left == right

/-- `getVariables(formula)` returns a JS `Set`; we return its element list
(deduplicated — the `Set` constructor drops repeats; element order is
irrelevant because the only consumer sorts the list). -/
def getVariables : Formula → List String
  | .ATOM v => [v]
  | .NOT f => getVariables f
  | .BINARY _ l r => (getVariables l ++ getVariables r).dedup

/-- JS default `Array.prototype.sort()` comparison on strings: lexicographic on
code units; on the parser's ASCII atom names this is the lexicographic order on
the character list. -/
def strLe (a b : String) : Prop := a.data ≤ b.data

instance : DecidableRel strLe := fun a b => inferInstanceAs (Decidable (a.data ≤ b.data))

instance : IsTotal String strLe :=
  ⟨fun a b => @IsTotal.total (List Char) (· ≤ ·) inferInstance a.data b.data⟩

instance : IsTrans String strLe := ⟨fun _ _ _ h h' => Trans.trans (α := List Char) h h'⟩

/-- The assignment built by the inner `for (let j ...)` loop of
`generateTruthTable`: variable `j` receives bit `n - 1 - j` of `x`
(`x = numRows - 1 - i`), i.e. `((numRows - 1 - i) >> (n - 1 - j)) & 1`. -/
def rowAssignment : List String → Nat → Nat → Nat → TruthAssignment
  | [], _, _, _ => []
  | v :: vs, n, j, x => (v, x.testBit (n - 1 - j)) :: rowAssignment vs n (j + 1) x

/-- The record returned by `generateTruthTable`; the TS field `variables` is a
reserved word in Lean 4, so it is spelled `vars` here. -/
structure TruthTable where
  vars : List String
  rows : List (TruthAssignment × Bool)
deriving Repr

/-- `generateTruthTable(formula)`:
`variables = Array.from(getVariables(formula)).sort()`, `numRows = 2 ** n`,
and row `i` pairs the bit-pattern assignment for `numRows - 1 - i` with the
formula's value under it. -/
def generateTruthTable (f : Formula) : TruthTable :=
  let vars := List.insertionSort strLe (getVariables f)
  let n := vars.length
  let numRows := 2 ^ n
  { vars := vars
    rows := (List.range numRows).map fun i =>
      let a := rowAssignment vars n 0 (numRows - 1 - i)
      (a, evaluate f a) }

/-! ## Analyzer (analyzer.ts) -/

inductive FormulaClassification
  | TAUTOLOGY | CONTRADICTION | CONTINGENT
deriving DecidableEq, Repr

def classifyFormula (f : Formula) : FormulaClassification :=
  let rows := (generateTruthTable f).rows
  if rows.all (fun row => row.2 == true) then .TAUTOLOGY
  else if rows.all (fun row => row.2 == false) then .CONTRADICTION
  else .CONTINGENT

def isTautology (f : Formula) : Bool :=
  classifyFormula f == .TAUTOLOGY

def isContradiction (f : Formula) : Bool :=
  classifyFormula f == .CONTRADICTION

def areEquivalent (f1 f2 : Formula) : Bool :=
  isTautology (.BINARY .IFF f1 f2)

/-! ## Normal-form transformer (normalForms.ts) -/

def eliminateImplications : Formula → Formula
  | .ATOM v => .ATOM v
  | .NOT f => .NOT (eliminateImplications f)
  | .BINARY op l r =>
    let left := eliminateImplications l
    let right := eliminateImplications r
    match op with
    | .IMPLIES => .BINARY .OR (.NOT left) right
    | .IFF =>
      .BINARY .AND
        (.BINARY .OR (.NOT left) right)
        (.BINARY .OR (.NOT right) left)
    | _ => .BINARY op left right

/-- Termination measure for `pushNegationsInward` (the source recursion calls
itself on freshly built formulas; this weight strictly drops on every call). -/
def negWeight : Formula → Nat
  | .ATOM _ => 0
  | .NOT f => 3 * negWeight f + 1
  | .BINARY _ l r => negWeight l + negWeight r + 1

def pushNegationsInward : Formula → Formula
  | .ATOM v => .ATOM v
  | .NOT operand =>
    match operand with
    | .ATOM v => .NOT (.ATOM v)
    | .NOT a => pushNegationsInward a
    | .BINARY .AND l r =>
      pushNegationsInward (.BINARY .OR (.NOT l) (.NOT r))
    | .BINARY .OR l r =>
      pushNegationsInward (.BINARY .AND (.NOT l) (.NOT r))
    | .BINARY op l r => .NOT (.BINARY op l r)
  | .BINARY op l r => .BINARY op (pushNegationsInward l) (pushNegationsInward r)
termination_by f => negWeight f
decreasing_by
  all_goals simp [negWeight]
  all_goals omega

/-- Termination measure for `distributeOrOverAnd`. -/
def orDistWeight : Formula → Nat
  | .BINARY .AND l r => 2 * (orDistWeight l + orDistWeight r) + 1
  | .BINARY .OR l r => orDistWeight l + orDistWeight r
  | _ => 0

/-- Termination measure for `distributeAndOverOr`. -/
def andDistWeight : Formula → Nat
  | .BINARY .OR l r => 2 * (andDistWeight l + andDistWeight r) + 1
  | .BINARY .AND l r => andDistWeight l + andDistWeight r
  | _ => 0

/-- `distributeOrOverAnd`: the source tests in order (a) the node is an `OR`,
(b) the right child is an `AND`, (c) the left child is an `AND`; the ordered
overlapping patterns below implement exactly those tests. -/
def distributeOrOverAnd (formula : Formula) : Formula :=
  match formula with
  | .BINARY .OR left (.BINARY .AND rl rr) =>
    .BINARY .AND
      (distributeOrOverAnd (.BINARY .OR left rl))
      (distributeOrOverAnd (.BINARY .OR left rr))
  | .BINARY .OR (.BINARY .AND ll lr) right =>
    .BINARY .AND
      (distributeOrOverAnd (.BINARY .OR ll right))
      (distributeOrOverAnd (.BINARY .OR lr right))
  | _ => formula
termination_by orDistWeight formula
decreasing_by
  all_goals simp [orDistWeight]
  all_goals omega

/-- `distributeAndOverOr`, dually to `distributeOrOverAnd`. -/
def distributeAndOverOr (formula : Formula) : Formula :=
  match formula with
  | .BINARY .AND left (.BINARY .OR rl rr) =>
    .BINARY .OR
      (distributeAndOverOr (.BINARY .AND left rl))
      (distributeAndOverOr (.BINARY .AND left rr))
  | .BINARY .AND (.BINARY .OR ll lr) right =>
    .BINARY .OR
      (distributeAndOverOr (.BINARY .AND ll right))
      (distributeAndOverOr (.BINARY .AND lr right))
  | _ => formula
termination_by andDistWeight formula
decreasing_by
  all_goals simp [andDistWeight]
  all_goals omega

def toCNFRecursive : Formula → Formula
  | .ATOM v => .ATOM v
  | .NOT f => .NOT f
  | .BINARY op l r =>
    let left := toCNFRecursive l
    let right := toCNFRecursive r
    let combined : Formula := .BINARY op left right
    if op = .OR then distributeOrOverAnd combined else combined

def toDNFRecursive : Formula → Formula
  | .ATOM v => .ATOM v
  | .NOT f => .NOT f
  | .BINARY op l r =>
    let left := toDNFRecursive l
    let right := toDNFRecursive r
    let combined : Formula := .BINARY op left right
    if op = .AND then distributeAndOverOr combined else combined

def toCNF (formula : Formula) : Formula :=
  toCNFRecursive (pushNegationsInward (eliminateImplications formula))

def toDNF (formula : Formula) : Formula :=
  toDNFRecursive (pushNegationsInward (eliminateImplications formula))

def toNNF (formula : Formula) : Formula :=
  pushNegationsInward (eliminateImplications formula)

/-! ## Pretty-printer (analyzer.ts: `formulaToString`, `getPrecedence`) -/

/-- `getPrecedence(op)` (the TS default branch returning 0 is unreachable:
the argument is always one of the four connectives). -/
def getPrecedence : Connective → Nat
  | .IFF => 1
  | .IMPLIES => 2
  | .OR => 3
  | .AND => 4

/-- The symbol table used by `formulaToString` for binary connectives. -/
def connectiveSymbol : Connective → String
  | .AND => "∧"
  | .OR => "∨"
  | .IMPLIES => "→"
  | .IFF => "↔"

/-- `formulaToString(formula)`: parenthesises a left child of strictly lower
precedence and a right child of lower-or-equal precedence; a `NOT` operand is
parenthesised exactly when it is a binary node. -/
def formulaToString : Formula → String
  | .ATOM v => v
  | .NOT operand =>
    let operandStr := formulaToString operand
    match operand with
    | .BINARY _ _ _ => "¬(" ++ operandStr ++ ")"
    | _ => "¬" ++ operandStr
  | .BINARY op l r =>
    let left := formulaToString l
    let right := formulaToString r
    let leftStr :=
      match l with
      | .BINARY lop _ _ =>
        if getPrecedence lop < getPrecedence op then "(" ++ left ++ ")" else left
      | _ => left
    let rightStr :=
      match r with
      | .BINARY rop _ _ =>
        if getPrecedence rop ≤ getPrecedence op then "(" ++ right ++ ")" else right
      | _ => right
    leftStr ++ " " ++ connectiveSymbol op ++ " " ++ rightStr

/-! ## Parser (parser.ts) -/

/-- Tokens.  TS `TokenType` also contains `EOF`, modelled here as the end of
the token list; the `pos` field feeds only error messages and is dropped. -/
inductive Token
  | ATOM (value : String)
  | LPAREN
  | RPAREN
  | NOT
  | AND
  | OR
  | IMPLIES
  | IFF
deriving DecidableEq, Repr

/-- The token-type name used in parser error messages. -/
def tokenTypeName : List Token → String
  | [] => "EOF"
  | .ATOM _ :: _ => "ATOM"
  | .LPAREN :: _ => "LPAREN"
  | .RPAREN :: _ => "RPAREN"
  | .NOT :: _ => "NOT"
  | .AND :: _ => "AND"
  | .OR :: _ => "OR"
  | .IMPLIES :: _ => "IMPLIES"
  | .IFF :: _ => "IFF"

/-- `/\s/` on the characters the tokenizer can meet (space, tab, LF, CR). -/
def isWhitespaceChar (c : Char) : Bool :=
  c.toNat == 32 || c.toNat == 9 || c.toNat == 10 || c.toNat == 13

/-- `/[A-Za-z]/`, by code point. -/
def isAsciiLetter (c : Char) : Bool :=
  (65 ≤ c.toNat && c.toNat ≤ 90) || (97 ≤ c.toNat && c.toNat ≤ 122)

/-- `/[A-Za-z0-9_]/`, by code point. -/
def isAtomChar (c : Char) : Bool :=
  isAsciiLetter c || (48 ≤ c.toNat && c.toNat ≤ 57) || c.toNat == 95

/-- The tokenizer (`LogicParser.tokenize`): skips whitespace, reads maximal
`[A-Za-z][A-Za-z0-9_]*` runs as `ATOM`s, single-character connective symbols,
and the multi-character sequences `->`, `=>`, `<->`, `<=>`. -/
def tokenize (input : List Char) : Except String (List Token) :=
  match input with
  | [] => .ok []
  | c :: cs =>
    if isWhitespaceChar c then
      tokenize cs
    else if isAsciiLetter c then
      (tokenize (cs.dropWhile isAtomChar)).map
        (Token.ATOM (String.mk (c :: cs.takeWhile isAtomChar)) :: ·)
    else if c == '(' then (tokenize cs).map (Token.LPAREN :: ·)
    else if c == ')' then (tokenize cs).map (Token.RPAREN :: ·)
    else if c == '~' || c == '¬' || c == '!' then (tokenize cs).map (Token.NOT :: ·)
    else if c == '&' || c == '^' || c == '∧' then (tokenize cs).map (Token.AND :: ·)
    else if c == '|' || c == '∨' then (tokenize cs).map (Token.OR :: ·)
    else if c == '→' then (tokenize cs).map (Token.IMPLIES :: ·)
    else if c == '↔' then (tokenize cs).map (Token.IFF :: ·)
    else if c == '-' then
      match cs with
      | '>' :: cs2 => (tokenize cs2).map (Token.IMPLIES :: ·)
      | _ => .error "Unknown char -"
    else if c == '=' then
      match cs with
      | '>' :: cs2 => (tokenize cs2).map (Token.IMPLIES :: ·)
      | _ => .error "Unknown char ="
    else if c == '<' then
      match cs with
      | '-' :: '>' :: cs2 => (tokenize cs2).map (Token.IFF :: ·)
      | '=' :: '>' :: cs2 => (tokenize cs2).map (Token.IFF :: ·)
      | _ => .error "Unknown char <"
    else .error ("Unknown char " ++ String.mk [c])
termination_by input.length
decreasing_by
  all_goals first
  | (simp only [List.length_cons]; omega)
  | (have hdw : (cs.dropWhile isAtomChar).length ≤ cs.length := by
       induction cs with
       | nil => simp
       | cons a l ih =>
         by_cases h : isAtomChar a = true
         · simp only [List.dropWhile, h]
           exact ih.trans (by simp)
         · simp [List.dropWhile, h]
     simp only [List.length_cons]
     omega)

/-!
Recursive-descent parser, one function per precedence level
(`LogicParser.parseIff` … `LogicParser.parseAtom`), plus one function per TS
`while` loop.  Each function consumes tokens from the front of its input; the
returned remainder is bundled with a length bound so that the mutual recursion
is well-founded.
-/

mutual

/-- `Iff -> Implies ( <-> Implies )*` (left-associative via the loop). -/
def parseIff (ts : List Token) :
    Except String { p : Formula × List Token // p.2.length ≤ ts.length } :=
  match parseImplies ts with
  | .error e => .error e
  | .ok ⟨(left, rest), hb⟩ =>
    match parseIffLoop left rest with
    | .error e => .error e
    | .ok ⟨(f, rest2), hb2⟩ => .ok ⟨(f, rest2), hb2.trans hb⟩
termination_by 16 * ts.length + 8
decreasing_by
  all_goals (try simp_all)
  all_goals omega

/-- The `while (current == IFF)` loop of `parseIff`. -/
def parseIffLoop (left : Formula) (ts : List Token) :
    Except String { p : Formula × List Token // p.2.length ≤ ts.length } :=
  match ts with
  | .IFF :: ts2 =>
    match parseImplies ts2 with
    | .error e => .error e
    | .ok ⟨(right, rest), hb⟩ =>
      match parseIffLoop (.BINARY .IFF left right) rest with
      | .error e => .error e
      | .ok ⟨(f, rest2), hb2⟩ =>
        .ok ⟨(f, rest2), by simp at hb hb2 ⊢; omega⟩
  | other => .ok ⟨(left, other), le_refl _⟩
termination_by 16 * ts.length + 7
decreasing_by
  all_goals (try simp_all)
  all_goals omega

/-- `Implies -> Or ( -> Implies )?` — deliberately right-associative: on
seeing `IMPLIES` the parser recurses into the whole rest. -/
def parseImplies (ts : List Token) :
    Except String { p : Formula × List Token // p.2.length ≤ ts.length } :=
  match parseOr ts with
  | .error e => .error e
  | .ok ⟨(left, rest), hb⟩ =>
    match rest, hb with
    | .IMPLIES :: ts2, hb =>
      match parseImplies ts2 with
      | .error e => .error e
      | .ok ⟨(right, rest2), hb2⟩ =>
        .ok ⟨(.BINARY .IMPLIES left right, rest2), by simp at hb hb2 ⊢; omega⟩
    | other, hb => .ok ⟨(left, other), hb⟩
termination_by 16 * ts.length + 6
decreasing_by
  all_goals (try simp_all)
  all_goals omega

/-- `Or -> And ( | And )*` (left-associative via the loop). -/
def parseOr (ts : List Token) :
    Except String { p : Formula × List Token // p.2.length ≤ ts.length } :=
  match parseAnd ts with
  | .error e => .error e
  | .ok ⟨(left, rest), hb⟩ =>
    match parseOrLoop left rest with
    | .error e => .error e
    | .ok ⟨(f, rest2), hb2⟩ => .ok ⟨(f, rest2), hb2.trans hb⟩
termination_by 16 * ts.length + 5
decreasing_by
  all_goals (try simp_all)
  all_goals omega

/-- The `while (current == OR)` loop of `parseOr`. -/
def parseOrLoop (left : Formula) (ts : List Token) :
    Except String { p : Formula × List Token // p.2.length ≤ ts.length } :=
  match ts with
  | .OR :: ts2 =>
    match parseAnd ts2 with
    | .error e => .error e
    | .ok ⟨(right, rest), hb⟩ =>
      match parseOrLoop (.BINARY .OR left right) rest with
      | .error e => .error e
      | .ok ⟨(f, rest2), hb2⟩ =>
        .ok ⟨(f, rest2), by simp at hb hb2 ⊢; omega⟩
  | other => .ok ⟨(left, other), le_refl _⟩
termination_by 16 * ts.length + 4
decreasing_by
  all_goals (try simp_all)
  all_goals omega

/-- `And -> Not ( & Not )*` (left-associative via the loop). -/
def parseAnd (ts : List Token) :
    Except String { p : Formula × List Token // p.2.length ≤ ts.length } :=
  match parseNot ts with
  | .error e => .error e
  | .ok ⟨(left, rest), hb⟩ =>
    match parseAndLoop left rest with
    | .error e => .error e
    | .ok ⟨(f, rest2), hb2⟩ => .ok ⟨(f, rest2), hb2.trans hb⟩
termination_by 16 * ts.length + 3
decreasing_by
  all_goals (try simp_all)
  all_goals omega

/-- The `while (current == AND)` loop of `parseAnd`. -/
def parseAndLoop (left : Formula) (ts : List Token) :
    Except String { p : Formula × List Token // p.2.length ≤ ts.length } :=
  match ts with
  | .AND :: ts2 =>
    match parseNot ts2 with
    | .error e => .error e
    | .ok ⟨(right, rest), hb⟩ =>
      match parseAndLoop (.BINARY .AND left right) rest with
      | .error e => .error e
      | .ok ⟨(f, rest2), hb2⟩ =>
        .ok ⟨(f, rest2), by simp at hb hb2 ⊢; omega⟩
  | other => .ok ⟨(left, other), le_refl _⟩
termination_by 16 * ts.length + 2
decreasing_by
  all_goals (try simp_all)
  all_goals omega

/-- `Not -> ~Not | AtomTerm`. -/
def parseNot (ts : List Token) :
    Except String { p : Formula × List Token // p.2.length ≤ ts.length } :=
  match ts with
  | .NOT :: ts2 =>
    match parseNot ts2 with
    | .error e => .error e
    | .ok ⟨(f, rest), hb⟩ =>
      .ok ⟨(.NOT f, rest), by simp at hb ⊢; omega⟩
  | other => parseAtom other
termination_by 16 * ts.length + 1
decreasing_by
  all_goals (try simp_all)
  all_goals omega

/-- `AtomTerm -> ( Iff ) | ATOM`. -/
def parseAtom (ts : List Token) :
    Except String { p : Formula × List Token // p.2.length ≤ ts.length } :=
  match ts with
  | .LPAREN :: ts2 =>
    match parseIff ts2 with
    | .error e => .error e
    | .ok ⟨(expr, rest), hb⟩ =>
      match rest, hb with
      | .RPAREN :: rest2, hb =>
        .ok ⟨(expr, rest2), by simp at hb ⊢; omega⟩
      | other, hb => .error ("Expected RPAREN but found " ++ tokenTypeName other)
  | .ATOM v :: ts2 => .ok ⟨(.ATOM v, ts2), by simp⟩
  | other => .error ("Unexpected token at atom expectation: " ++ tokenTypeName other)
termination_by 16 * ts.length + 0
decreasing_by
  all_goals (try simp_all)
  all_goals omega

end

/-- `LogicParser.parse`: tokenize, parse an `Iff`, and require that all tokens
were consumed (`current().type === 'EOF'`). -/
def parse (input : String) : Except String Formula :=
  match tokenize input.data with
  | .error e => .error e
  | .ok ts =>
    match parseIff ts with
    | .error e => .error e
    | .ok ⟨(result, rest), _⟩ =>
      match rest with
      | [] => .ok result
      | rest => .error ("Unexpected token: " ++ tokenTypeName rest)


/-! ## Grading (grader.ts, exerciseTypes.ts)

The grader receives `unknown`-typed JSON blobs (`content`, `solution`) and an
`unknown` student answer, and casts them unchecked.  We model the values those
casts can meet as small sum types (`ContentV`, `SolutionV`, `Answer`) and give
each property access its JavaScript semantics: reading a property of `null`
throws (modelled as `Except.error`), reading a missing property of an object
yields `undefined` (modelled as `Option.none` or a default), and `try/catch`
is a `match` on the `Except` value. -/

/-- A JavaScript number as produced by the grading arithmetic: exact
rationals plus the special values that division by zero produces.  The only
score arithmetic is small-integer division and `Math.max`, both exact, so no
floating-point rounding needs modelling. -/
inductive JSNum
  | nan
  | inf
  | neginf
  | rat (q : ℚ)
deriving DecidableEq, Repr

/-- JS division `n / d` on numbers: `0 / 0 = NaN`, `±n / 0 = ±Infinity`. -/
def jsDiv (n d : Int) : JSNum :=
  if d = 0 then
    if n = 0 then .nan else if 0 < n then .inf else .neginf
  else .rat ((n : ℚ) / (d : ℚ))

/-- JS `Math.max`: returns `NaN` if any argument is `NaN`. -/
def jsMax : JSNum → JSNum → JSNum
  | .nan, _ => .nan
  | _, .nan => .nan
  | .inf, _ => .inf
  | _, .inf => .inf
  | .neginf, y => y
  | x, .neginf => x
  | .rat a, .rat b => .rat (max a b)

/-- JS `<=` on numbers: any comparison involving `NaN` is `false`. -/
def jsLe : JSNum → JSNum → Bool
  | .nan, _ => false
  | _, .nan => false
  | .neginf, _ => true
  | _, .neginf => false
  | _, .inf => true
  | .inf, _ => false
  | .rat a, .rat b => decide (a ≤ b)

/-- `GradingResult` (grader.ts).  The optional `details` diagnostic payload is
not modelled: no claim and no grading decision reads it. -/
structure GradingResult where
  isCorrect : Bool
  score : JSNum
  feedback : String
  explanation : Option String := none
deriving DecidableEq, Repr

/-- The nine `ExerciseType` tags (exerciseTypes.ts). -/
inductive ExerciseType
  | EQUIVALENCE
  | MULTIPLE_CHOICE
  | SYMBOL_ARRANGEMENT
  | FORMULATION
  | VALIDATION
  | TRUTH_TABLE
  | PROOF
  | NORMAL_FORM
  | IDENTIFY_FALLACY
deriving DecidableEq, Repr

/-- The string the tag interpolates to in `` `...${exercise.type}` ``. -/
def exerciseTypeName : ExerciseType → String
  | .EQUIVALENCE => "EQUIVALENCE"
  | .MULTIPLE_CHOICE => "MULTIPLE_CHOICE"
  | .SYMBOL_ARRANGEMENT => "SYMBOL_ARRANGEMENT"
  | .FORMULATION => "FORMULATION"
  | .VALIDATION => "VALIDATION"
  | .TRUTH_TABLE => "TRUTH_TABLE"
  | .PROOF => "PROOF"
  | .NORMAL_FORM => "NORMAL_FORM"
  | .IDENTIFY_FALLACY => "IDENTIFY_FALLACY"

/-- The slice of `MultipleChoiceContent` the grader reads; a missing
`allowMultiple` is `undefined`, i.e. falsy, i.e. `false` here. -/
structure MultipleChoiceContent where
  allowMultiple : Bool
deriving DecidableEq, Repr

structure MultipleChoiceSolution where
  correctOptionIds : List String
deriving DecidableEq, Repr

/-- One entry of `TruthTableContent.hiddenCells`. -/
structure HiddenCell where
  row : Nat
  column : String
deriving DecidableEq, Repr

structure TruthTableContent where
  formula : String
  hiddenCells : List HiddenCell
deriving DecidableEq, Repr

/-- `TruthTableSolution.values : Record<string, boolean[]>`. -/
structure TruthTableSolution where
  values : List (String × List Bool)
deriving DecidableEq, Repr

/-- `NormalFormContent`; `targetForm` is kept as a string because the grader
only interpolates it into feedback text. -/
structure NormalFormContent where
  formula : String
  targetForm : String
deriving DecidableEq, Repr

structure ValidationSolution where
  isValid : Bool
  explanation : String
deriving DecidableEq, Repr

structure IdentifyFallacySolution where
  correctFallacyId : String
  explanation : String
deriving DecidableEq, Repr

/-- The `exercise.content` blob: one variant per shape the grader reads, plus
`null` for a null/missing blob. -/
inductive ContentV
  | equivalence (targetFormula : Option String)
  | multipleChoice (c : MultipleChoiceContent)
  | truthTable (c : TruthTableContent)
  | normalForm (c : NormalFormContent)
  | null
deriving DecidableEq, Repr

/-- The `exercise.solution` blob.  `formulas` covers the three solution shapes
that consist of a `correctFormulas` list (symbol arrangement, formulation,
normal form). -/
inductive SolutionV
  | multipleChoice (s : MultipleChoiceSolution)
  | formulas (correctFormulas : List String)
  | validation (s : ValidationSolution)
  | truthTable (s : TruthTableSolution)
  | fallacy (s : IdentifyFallacySolution)
  | null
deriving DecidableEq, Repr

/-- The student's raw answer (`unknown`): the shapes the UI can submit, plus
`null`. -/
inductive Answer
  | str (s : String)
  | strList (l : List String)
  | validation (isValid : Bool)
  | table (cells : List (String × List Bool))
  | null
deriving DecidableEq, Repr

structure ExerciseData where
  type : ExerciseType
  formula : Option String := none
  content : ContentV
  solution : SolutionV
  explanation : Option String := none
deriving DecidableEq, Repr

/-- `x || undefined` on an optional string: the empty string is falsy. -/
def explOr : Option String → Option String
  | some s => if s = "" then none else some s
  | none => none

/-- `a || b` on optional strings (used for `explanation || solution.explanation`). -/
def jsOrStr (a b : Option String) : Option String :=
  match a with
  | some s => if s = "" then b else some s
  | none => b

/-- `studentAnswer.trim()` / `.replace(...)`: a method call on a non-string
throws a `TypeError`. -/
def answerAsString : Answer → Except String String
  | .str s => .ok s
  | _ => .error "studentAnswer is not a string"

/-- `studentAnswer.forEach(...)`: requires an array. -/
def answerAsStringArray : Answer → Except String (List String)
  | .strList l => .ok l
  | _ => .error "studentAnswer.forEach is not a function"

/-- `new Set(studentAnswer)`: throws iff the value is neither iterable nor
null (strings and arrays are iterable; `new Set(null)` is allowed). -/
def jsNewSetCheck : Answer → Except String Unit
  | .validation _ => .error "studentAnswer is not iterable"
  | .table _ => .error "studentAnswer is not iterable"
  | _ => .ok ()

/-- `studentAnswer.length`: throws on `null`, is a number for strings and
arrays, and `undefined` for other objects. -/
def answerLength : Answer → Except String (Option Nat)
  | .null => .error "Cannot read properties of null"
  | .str s => .ok (some s.length)
  | .strList l => .ok (some l.length)
  | _ => .ok none

/-- `studentAnswer[0]` (only reached when `length === 1`): the first element
of an array, or the one-character string `s[0]` of a string. -/
def answerFirst : Answer → Option String
  | .str s => s.data.head?.map (fun c => String.mk [c])
  | .strList l => l.head?
  | _ => none

/-- `studentAnswer.isValid`: throws on `null`, `undefined` on shapes without
the field. -/
def answerIsValid : Answer → Except String (Option Bool)
  | .null => .error "Cannot read properties of null"
  | .validation b => .ok (some b)
  | _ => .ok none

/-- `studentAnswer[column]?.[row]`: throws on `null`, otherwise an optional
boolean (out-of-range or missing column gives `undefined`). -/
def answerCell : Answer → String → Nat → Except String (Option Bool)
  | .null, _, _ => .error "Cannot read properties of null"
  | .table cells, col, row => .ok ((cells.lookup col).bind (fun l => l.get? row))
  | _, _, _ => .ok none

/-- `(exercise.content as { targetFormula?: string })?.targetFormula` — the
optional chaining makes this null-safe. -/
def contentTargetFormula : ContentV → Option String
  | .equivalence t => t
  | _ => none

/-- `content.allowMultiple`: throws on `null` content, `undefined` (falsy) on
other shapes. -/
def contentAllowMultiple : ContentV → Except String Bool
  | .null => .error "Cannot read properties of null"
  | .multipleChoice c => .ok c.allowMultiple
  | _ => .ok false

/-- `content.hiddenCells` followed by `.length`: any non-truth-table shape
throws (either reading a property of `null` or `undefined.length`). -/
def contentHiddenCells : ContentV → Except String (List HiddenCell)
  | .truthTable c => .ok c.hiddenCells
  | _ => .error "Cannot read properties of undefined"

/-- `content.targetForm` (feedback interpolation in `gradeNormalForm`):
throws on `null` content, interpolates as `"undefined"` on other shapes. -/
def contentTargetForm : ContentV → Except String String
  | .null => .error "Cannot read properties of null"
  | .normalForm c => .ok c.targetForm
  | _ => .ok "undefined"

/-- `solution.correctOptionIds` fed to `new Set(...)`: throws on `null`,
empty set on shapes without the field (`new Set(undefined)` is empty). -/
def solutionCorrectOptionIds : SolutionV → Except String (List String)
  | .multipleChoice s => .ok s.correctOptionIds
  | .null => .error "Cannot read properties of null"
  | _ => .ok []

/-- `for (const f of solution.correctFormulas)`: throws on `null` and on
shapes without the field (`undefined` is not iterable). -/
def solutionCorrectFormulas : SolutionV → Except String (List String)
  | .formulas l => .ok l
  | .null => .error "Cannot read properties of null"
  | _ => .error "solution.correctFormulas is not iterable"

/-- `solution.isValid`: throws on `null`, `undefined` on other shapes. -/
def solutionIsValid : SolutionV → Except String (Option Bool)
  | .validation s => .ok (some s.isValid)
  | .null => .error "Cannot read properties of null"
  | _ => .ok none

/-- `solution.values`, then indexed by a column name: a non-truth-table
solution throws by the time `undefined[column]` is evaluated. -/
def solutionValues : SolutionV → Except String (List (String × List Bool))
  | .truthTable s => .ok s.values
  | _ => .error "Cannot read properties of undefined"

/-- `solution.correctFallacyId`: throws on `null`, `undefined` otherwise. -/
def solutionCorrectFallacyId : SolutionV → Except String (Option String)
  | .fallacy s => .ok (some s.correctFallacyId)
  | .null => .error "Cannot read properties of null"
  | _ => .ok none

/-- `solution.explanation` on the validation / fallacy solution shapes. -/
def solutionExplanationStr : SolutionV → Option String
  | .validation s => some s.explanation
  | .fallacy s => some s.explanation
  | _ => none

/-- `checkEquivalence` (grader.ts): tautology test of the biconditional. -/
def checkEquivalence (f1 f2 : Formula) : Bool :=
  isTautology (.BINARY .IFF f1 f2)

/-- `replace(/\s+/g, '')`. -/
def removeWhitespace (s : String) : String :=
  String.mk (s.data.filter (fun c => !isWhitespaceChar c))

/-- `gradeEquivalence`: its whole body sits in its own `try/catch`, so it is
total — a thrown parse/shape error becomes `Error de sintaxis: …`. -/
def gradeEquivalence (exercise : ExerciseData) (studentAnswer : Answer) : GradingResult :=
  let targetFormulaStr :=
    match exercise.formula with
    | some s => if s = "" then contentTargetFormula exercise.content else some s
    | none => contentTargetFormula exercise.content
  match targetFormulaStr with
  | none => ⟨false, .rat 0, "Error: Configuración de ejercicio inválida.", none⟩
  | some t =>
    if t = "" then ⟨false, .rat 0, "Error: Configuración de ejercicio inválida.", none⟩
    else
      match (do
        let s ← answerAsString studentAnswer
        let studentFormula ← parse s.trim
        let targetFormula ← parse t
        pure (studentFormula, targetFormula) :
          Except String (Formula × Formula)) with
      | .error e => ⟨false, .rat 0, "Error de sintaxis: " ++ e, none⟩
      | .ok (sf, tf) =>
        if checkEquivalence sf tf then
          ⟨true, .rat 1, "¡Correcto! Tu fórmula es lógicamente equivalente.",
            explOr exercise.explanation⟩
        else
          ⟨false, .rat 0,
            "Incorrecto. Tu fórmula no es equivalente. Revisa la tabla de verdad.",
            explOr exercise.explanation⟩

/-- `gradeMultipleChoice`. -/
def gradeMultipleChoice (content : ContentV) (solution : SolutionV)
    (studentAnswer : Answer) (explanation : Option String) :
    Except String GradingResult := do
  let correctOptionIds ← solutionCorrectOptionIds solution
  let correctSet := correctOptionIds.dedup
  let _ ← jsNewSetCheck studentAnswer
  let allowMultiple ← contentAllowMultiple content
  if allowMultiple then
    let ids ← answerAsStringArray studentAnswer
    let totalCorrect := correctSet.length
    let correctSelected := (ids.filter (fun id => correctSet.contains id)).length
    let incorrectSelected := (ids.filter (fun id => !correctSet.contains id)).length
    let score := jsMax (.rat 0)
      (jsDiv ((correctSelected : Int) - (incorrectSelected : Int)) (totalCorrect : Int))
    let isCorrect := correctSelected == totalCorrect && incorrectSelected == 0
    pure
      { isCorrect := isCorrect
        score := score
        feedback :=
          if isCorrect then "¡Correcto! Seleccionaste todas las respuestas correctas."
          else if 0 < correctSelected then
            "Parcialmente correcto. Acertaste " ++ toString correctSelected
              ++ " de " ++ toString totalCorrect ++ "."
          else "Incorrecto. Ninguna de tus selecciones es correcta."
        explanation := explOr explanation }
  else
    let len ← answerLength studentAnswer
    let isCorrect :=
      len == some 1 && (answerFirst studentAnswer).elim false (fun x => correctSet.contains x)
    pure
      { isCorrect := isCorrect
        score := if isCorrect then .rat 1 else .rat 0
        feedback := if isCorrect then "¡Correcto!" else "Incorrecto. Esa no es la respuesta correcta."
        explanation := explOr explanation }

/-- The `for (const correctFormula of solution.correctFormulas)` loop of
`gradeSymbolArrangement`; parse failures only skip the candidate. -/
def symbolArrangementLoop (normalizedAnswer : String) (explanation : Option String) :
    List String → GradingResult
  | [] =>
    ⟨false, .rat 0, "Incorrecto. La fórmula que construiste no es la esperada.",
      explOr explanation⟩
  | correctFormula :: rest =>
    let normalizedCorrect := removeWhitespace correctFormula
    if normalizedAnswer == normalizedCorrect then
      ⟨true, .rat 1, "¡Correcto! Has construido la fórmula correctamente.",
        explOr explanation⟩
    else
      match parse normalizedAnswer, parse normalizedCorrect with
      | .ok sf, .ok tf =>
        if checkEquivalence sf tf then
          ⟨true, .rat 1, "¡Correcto! Tu fórmula es lógicamente equivalente.",
            explOr explanation⟩
        else symbolArrangementLoop normalizedAnswer explanation rest
      | _, _ => symbolArrangementLoop normalizedAnswer explanation rest

/-- `gradeSymbolArrangement`. -/
def gradeSymbolArrangement (solution : SolutionV) (studentAnswer : Answer)
    (explanation : Option String) : Except String GradingResult := do
  let s ← answerAsString studentAnswer
  let normalizedAnswer := removeWhitespace s
  let correctFormulas ← solutionCorrectFormulas solution
  pure (symbolArrangementLoop normalizedAnswer explanation correctFormulas)

/-- The candidate loop of `gradeFormulation` (direct match against the
trimmed candidate, otherwise equivalence with the untrimmed candidate). -/
def formulationLoop (normalizedAnswer : String) (explanation : Option String) :
    List String → GradingResult
  | [] =>
    ⟨false, .rat 0,
      "Incorrecto. Tu traducción no captura el significado del enunciado.",
      explOr explanation⟩
  | correctFormula :: rest =>
    if normalizedAnswer == correctFormula.trim then
      ⟨true, .rat 1, "¡Excelente! Tu traducción es correcta.", explOr explanation⟩
    else
      match parse normalizedAnswer, parse correctFormula with
      | .ok sf, .ok tf =>
        if checkEquivalence sf tf then
          ⟨true, .rat 1,
            "¡Correcto! Tu fórmula es lógicamente equivalente a la esperada.",
            explOr explanation⟩
        else formulationLoop normalizedAnswer explanation rest
      | _, _ => formulationLoop normalizedAnswer explanation rest

/-- `gradeFormulation`. -/
def gradeFormulation (solution : SolutionV) (studentAnswer : Answer)
    (explanation : Option String) : Except String GradingResult := do
  let s ← answerAsString studentAnswer
  let normalizedAnswer := s.trim
  let correctFormulas ← solutionCorrectFormulas solution
  pure (formulationLoop normalizedAnswer explanation correctFormulas)

/-- `gradeValidation`: compares the submitted validity flag with the stored
one (`===`, so two `undefined`s compare equal). -/
def gradeValidation (solution : SolutionV) (studentAnswer : Answer)
    (explanation : Option String) : Except String GradingResult := do
  let sv ← answerIsValid studentAnswer
  let solv ← solutionIsValid solution
  let isCorrect := sv == solv
  pure
    { isCorrect := isCorrect
      score := if isCorrect then .rat 1 else .rat 0
      feedback :=
        if isCorrect then
          if solv == some true then "¡Correcto! El argumento es válido."
          else "¡Correcto! El argumento es inválido."
        else
          if solv == some true then "Incorrecto. El argumento sí es válido."
          else "Incorrecto. El argumento es inválido; existe un contraejemplo."
      explanation := jsOrStr explanation (solutionExplanationStr solution) }

/-- The `for (const cell of content.hiddenCells)` loop of `gradeTruthTable`:
counts the hidden cells where the student's value `===` the solution's. -/
def countTruthTableCells (solution : SolutionV) (studentAnswer : Answer) :
    List HiddenCell → Except String Nat
  | [] => .ok 0
  | cell :: rest => do
    let sv ← solutionValues solution
    let correctValue := (sv.lookup cell.column).bind (fun l => l.get? cell.row)
    let studentValue ← answerCell studentAnswer cell.column cell.row
    let restCount ← countTruthTableCells solution studentAnswer rest
    pure ((if studentValue == correctValue then 1 else 0) + restCount)

/-- `gradeTruthTable`: per-cell comparison; `score = correct / total` guarded
by `totalCells > 0 ? … : 0`; correct iff every hidden cell matches. -/
def gradeTruthTable (content : ContentV) (solution : SolutionV)
    (studentAnswer : Answer) (explanation : Option String) :
    Except String GradingResult := do
  let hiddenCells ← contentHiddenCells content
  let correctCells ← countTruthTableCells solution studentAnswer hiddenCells
  let totalCells := hiddenCells.length
  let score : JSNum :=
    if 0 < totalCells then .rat ((correctCells : ℚ) / (totalCells : ℚ)) else .rat 0
  let isCorrect := correctCells == totalCells
  pure
    { isCorrect := isCorrect
      score := score
      feedback :=
        if isCorrect then "¡Perfecto! Todas las celdas son correctas."
        else if 0 < correctCells then
          "Casi. Tienes " ++ toString correctCells ++ " de "
            ++ toString totalCells ++ " celdas correctas."
        else "Incorrecto. Revisa los valores de la tabla."
      explanation := explOr explanation }

/-- The candidate loop of `gradeNormalForm`.  The string-match return and the
final return interpolate `content.targetForm` outside any `try`, so a bad
content blob throws there; the equivalence branch sits inside the
`try { … } catch { /* continue */ }`, so a throw there skips the candidate. -/
def normalFormLoop (content : ContentV) (normalizedAnswer : String)
    (explanation : Option String) : List String → Except String GradingResult
  | [] => do
    let tf ← contentTargetForm content
    pure ⟨false, .rat 0,
      "Incorrecto. Tu respuesta no está en " ++ tf ++ " o no es equivalente.",
      explOr explanation⟩
  | correctFormula :: rest =>
    if normalizedAnswer == correctFormula.trim then do
      let tf ← contentTargetForm content
      pure ⟨true, .rat 1,
        "¡Correcto! Has convertido correctamente a " ++ tf ++ ".",
        explOr explanation⟩
    else
      match (do
        let sf ← parse normalizedAnswer
        let tgt ← parse correctFormula
        if checkEquivalence sf tgt then
          Except.map some (contentTargetForm content)
        else pure none :
          Except String (Option String)) with
      | .ok (some tf) =>
        pure ⟨true, .rat 1, "¡Correcto! Tu " ++ tf ++ " es válida.",
          explOr explanation⟩
      | .ok none => normalFormLoop content normalizedAnswer explanation rest
      | .error _ => normalFormLoop content normalizedAnswer explanation rest

/-- `gradeNormalForm`. -/
def gradeNormalForm (content : ContentV) (solution : SolutionV)
    (studentAnswer : Answer) (explanation : Option String) :
    Except String GradingResult := do
  let s ← answerAsString studentAnswer
  let normalizedAnswer := s.trim
  let correctFormulas ← solutionCorrectFormulas solution
  normalFormLoop content normalizedAnswer explanation correctFormulas

/-- `gradeIdentifyFallacy`: `studentAnswer === solution.correctFallacyId`
(`===` never throws; only a `null` solution blob does). -/
def gradeIdentifyFallacy (solution : SolutionV) (studentAnswer : Answer)
    (explanation : Option String) : Except String GradingResult := do
  let fid ← solutionCorrectFallacyId solution
  let isCorrect :=
    match fid, studentAnswer with
    | some id, .str s => s == id
    | _, _ => false
  pure
    { isCorrect := isCorrect
      score := if isCorrect then .rat 1 else .rat 0
      feedback :=
        if isCorrect then "¡Correcto! Identificaste la falacia correctamente."
        else "Incorrecto. Esa no es la falacia presente en el argumento."
      explanation := jsOrStr explanation (solutionExplanationStr solution) }

/-- The body of `gradeSubmission`'s `switch` (everything inside the `try`):
an `Except.error` models an exception about to hit the dispatcher's `catch`.
There is no `case 'PROOF'`, so `PROOF` lands on the `default` branch. -/
def gradeCore (exercise : ExerciseData) (studentAnswer : Answer) :
    Except String GradingResult :=
  match exercise.type with
  | .EQUIVALENCE => .ok (gradeEquivalence exercise studentAnswer)
  | .MULTIPLE_CHOICE =>
    gradeMultipleChoice exercise.content exercise.solution studentAnswer exercise.explanation
  | .SYMBOL_ARRANGEMENT =>
    gradeSymbolArrangement exercise.solution studentAnswer exercise.explanation
  | .FORMULATION =>
    gradeFormulation exercise.solution studentAnswer exercise.explanation
  | .VALIDATION =>
    gradeValidation exercise.solution studentAnswer exercise.explanation
  | .TRUTH_TABLE =>
    gradeTruthTable exercise.content exercise.solution studentAnswer exercise.explanation
  | .NORMAL_FORM =>
    gradeNormalForm exercise.content exercise.solution studentAnswer exercise.explanation
  | .IDENTIFY_FALLACY =>
    gradeIdentifyFallacy exercise.solution studentAnswer exercise.explanation
  | .PROOF =>
    .ok ⟨false, .rat 0,
      "Tipo de ejercicio no soportado: " ++ exerciseTypeName exercise.type, none⟩

/-- `gradeSubmission`: the dispatcher `try/catch` — a caught exception becomes
`isCorrect = false`, `score = 0`, feedback `Error al evaluar: …`. -/
def gradeSubmission (exercise : ExerciseData) (studentAnswer : Answer) : GradingResult :=
  match gradeCore exercise studentAnswer with
  | .ok r => r
  | .error e => ⟨false, .rat 0, "Error al evaluar: " ++ e, none⟩


/-! ## Parser/printer correspondence infrastructure (proof-side definitions)

`tokList f` is the token sequence of `formulaToString f`; the `…Tok`
variants give the token sequence of a subformula as it is printed in a
given child position (wrapped in parentheses exactly when the printer wraps
it).  `validAtomName`/`atomsValid` characterise the atom names the tokenizer
can produce, and `noImpliesLeftOfImplies` excludes the one tree shape the
printer renders ambiguously.  The `…R` functions project the parser's
bounded results to plain values. -/

/-- A name the tokenizer reads as one `ATOM` token: `[A-Za-z][A-Za-z0-9_]*`. -/
def validAtomName (s : String) : Bool :=
  match s.data with
  | [] => false
  | c :: cs => isAsciiLetter c && cs.all isAtomChar

/-- Every atom of the formula has a tokenizer-producible name (true of every
output of `parse`). -/
def atomsValid : Formula → Bool
  | .ATOM v => validAtomName v
  | .NOT g => atomsValid g
  | .BINARY _ l r => atomsValid l && atomsValid r

/-- No `IMPLIES` node occurs as the left child of an `IMPLIES` node. -/
def noImpliesLeftOfImplies : Formula → Bool
  | .ATOM _ => true
  | .NOT g => noImpliesLeftOfImplies g
  | .BINARY op l r =>
    (match op, l with
     | .IMPLIES, .BINARY .IMPLIES _ _ => false
     | _, _ => true)
      && noImpliesLeftOfImplies l && noImpliesLeftOfImplies r

def opToken : Connective → Token
  | .AND => .AND
  | .OR => .OR
  | .IMPLIES => .IMPLIES
  | .IFF => .IFF

/-- The token sequence of `formulaToString f` (same parenthesisation rules). -/
def tokList : Formula → List Token
  | .ATOM v => [.ATOM v]
  | .NOT operand =>
    match operand with
    | .BINARY _ _ _ => .NOT :: .LPAREN :: (tokList operand ++ [.RPAREN])
    | _ => .NOT :: tokList operand
  | .BINARY op l r =>
    (match l with
     | .BINARY lop _ _ =>
       if getPrecedence lop < getPrecedence op then
         .LPAREN :: (tokList l ++ [.RPAREN])
       else tokList l
     | _ => tokList l)
    ++ opToken op ::
    (match r with
     | .BINARY rop _ _ =>
       if getPrecedence rop ≤ getPrecedence op then
         .LPAREN :: (tokList r ++ [.RPAREN])
       else tokList r
     | _ => tokList r)

/-- `f`'s printed tokens in a `NOT`-operand or tightest-binding position:
parenthesised iff `f` is binary. -/
def atomTok (f : Formula) : List Token :=
  match f with
  | .BINARY _ _ _ => .LPAREN :: (tokList f ++ [.RPAREN])
  | _ => tokList f

/-- `f`'s printed tokens in an `AND`-level position (parenthesised iff binary
with an operator other than `AND`). -/
def andTok (f : Formula) : List Token :=
  match f with
  | .BINARY .AND _ _ => tokList f
  | .BINARY _ _ _ => .LPAREN :: (tokList f ++ [.RPAREN])
  | _ => tokList f

/-- `f`'s printed tokens in an `OR`-level position (parenthesised iff its
operator is `IFF` or `IMPLIES`). -/
def orTok (f : Formula) : List Token :=
  match f with
  | .BINARY .IFF _ _ => .LPAREN :: (tokList f ++ [.RPAREN])
  | .BINARY .IMPLIES _ _ => .LPAREN :: (tokList f ++ [.RPAREN])
  | _ => tokList f

/-- `f`'s printed tokens in an `IMPLIES`-left position (parenthesised iff its
operator is `IFF`). -/
def impTok (f : Formula) : List Token :=
  match f with
  | .BINARY .IFF _ _ => .LPAREN :: (tokList f ++ [.RPAREN])
  | _ => tokList f

/-- `true` iff the characters that follow a printed formula cannot extend its
final atom token (start of a new token or end of input). -/
def goodFollow : List Char → Bool
  | [] => true
  | c :: _ => c == ' ' || c == ')'

def parseIffR (ts : List Token) : Except String (Formula × List Token) :=
  (parseIff ts).map Subtype.val

def parseIffLoopR (left : Formula) (ts : List Token) :
    Except String (Formula × List Token) :=
  (parseIffLoop left ts).map Subtype.val

def parseImpliesR (ts : List Token) : Except String (Formula × List Token) :=
  (parseImplies ts).map Subtype.val

def parseOrR (ts : List Token) : Except String (Formula × List Token) :=
  (parseOr ts).map Subtype.val

def parseOrLoopR (left : Formula) (ts : List Token) :
    Except String (Formula × List Token) :=
  (parseOrLoop left ts).map Subtype.val

def parseAndR (ts : List Token) : Except String (Formula × List Token) :=
  (parseAnd ts).map Subtype.val

def parseAndLoopR (left : Formula) (ts : List Token) :
    Except String (Formula × List Token) :=
  (parseAndLoop left ts).map Subtype.val

def parseNotR (ts : List Token) : Except String (Formula × List Token) :=
  (parseNot ts).map Subtype.val

def parseAtomR (ts : List Token) : Except String (Formula × List Token) :=
  (parseAtom ts).map Subtype.val


/-- `f` as printed in a parenthesise-iff-binary position. -/
def printAtomChild (f : Formula) : String :=
  match f with
  | .BINARY _ _ _ => "(" ++ formulaToString f ++ ")"
  | _ => formulaToString f

/-- `f` as printed in an `AND`-level position. -/
def printAndChild (f : Formula) : String :=
  match f with
  | .BINARY .AND _ _ => formulaToString f
  | .BINARY _ _ _ => "(" ++ formulaToString f ++ ")"
  | _ => formulaToString f

/-- `f` as printed in an `OR`-level position. -/
def printOrChild (f : Formula) : String :=
  match f with
  | .BINARY .IFF _ _ => "(" ++ formulaToString f ++ ")"
  | .BINARY .IMPLIES _ _ => "(" ++ formulaToString f ++ ")"
  | _ => formulaToString f

/-- `f` as printed in an `IMPLIES`-left position. -/
def printImpChild (f : Formula) : String :=
  match f with
  | .BINARY .IFF _ _ => "(" ++ formulaToString f ++ ")"
  | _ => formulaToString f


/-- The loop/fallthrough head tests of the parser: `true` iff the token list
does not start with the given operator token. -/
def noNotHead : List Token → Bool
  | .NOT :: _ => false
  | _ => true

/-- True iff the token list does not start with `AND` (the `parseAnd` loop exits). -/
def noAndHead : List Token → Bool
  | .AND :: _ => false
  | _ => true

/-- True iff the token list does not start with `OR` (the `parseOr` loop exits). -/
def noOrHead : List Token → Bool
  | .OR :: _ => false
  | _ => true

/-- True iff the token list does not start with `IMPLIES` (`parseImplies` takes no step). -/
def noImpHead : List Token → Bool
  | .IMPLIES :: _ => false
  | _ => true

/-- True iff the token list does not start with `IFF` (the `parseIff` loop exits). -/
def noIffHead : List Token → Bool
  | .IFF :: _ => false
  | _ => true


/-! # Theorems -/

/-! ## Semantic preservation of the normal-form passes (C1) -/

theorem evaluate_eliminateImplications (f : Formula) (a : TruthAssignment) :
    evaluate (eliminateImplications f) a = evaluate f a := by
  induction f with
  | ATOM v => rfl
  | NOT g ih => simp [eliminateImplications, evaluate, ih]
  | BINARY op l r ihl ihr =>
    cases op <;>
      simp [eliminateImplications, evaluate, ihl, ihr] <;>
      cases evaluate l a <;> cases evaluate r a <;> rfl

theorem evaluate_pushNegationsInward (f : Formula) (a : TruthAssignment) :
    evaluate (pushNegationsInward f) a = evaluate f a := by
  induction f using pushNegationsInward.induct with
  | case1 v => simp [pushNegationsInward]
  | case2 v => simp [pushNegationsInward]
  | case3 g ih =>
    simp only [pushNegationsInward, ih, evaluate, Bool.not_not]
  | case4 l r ih =>
    simp only [pushNegationsInward] at ih ⊢
    simp only [evaluate] at ih ⊢
    rw [ih]
    cases evaluate l a <;> cases evaluate r a <;> rfl
  | case5 l r ih =>
    simp only [pushNegationsInward] at ih ⊢
    simp only [evaluate] at ih ⊢
    rw [ih]
    cases evaluate l a <;> cases evaluate r a <;> rfl
  | case6 op l r h1 h2 =>
    cases op with
    | AND => exact absurd rfl h1
    | OR => exact absurd rfl h2
    | IMPLIES => simp [pushNegationsInward]
    | IFF => simp [pushNegationsInward]
  | case7 op l r ihl ihr =>
    cases op <;> simp [pushNegationsInward, evaluate, ihl, ihr]

theorem evaluate_distributeOrOverAnd (f : Formula) (a : TruthAssignment) :
    evaluate (distributeOrOverAnd f) a = evaluate f a := by
  induction f using distributeOrOverAnd.induct with
  | case1 left rl rr ih1 ih2 =>
    simp [distributeOrOverAnd, evaluate, ih1, ih2]
    cases evaluate left a <;> simp
  | case2 ll lr right h ih1 ih2 =>
    simp [distributeOrOverAnd, evaluate, ih1, ih2]
    cases evaluate right a <;> simp [Bool.and_or_distrib_right]
  | case3 g h1 h2 =>
    have hg : distributeOrOverAnd g = g := by
      rw [distributeOrOverAnd.eq_def]
      split
      · exact absurd rfl (h1 _ _ _)
      · exact absurd rfl (h2 _ _ _)
      · rfl
    rw [hg]

theorem evaluate_distributeAndOverOr (f : Formula) (a : TruthAssignment) :
    evaluate (distributeAndOverOr f) a = evaluate f a := by
  induction f using distributeAndOverOr.induct with
  | case1 left rl rr ih1 ih2 =>
    simp [distributeAndOverOr, evaluate, ih1, ih2]
    cases evaluate left a <;> simp
  | case2 ll lr right h ih1 ih2 =>
    simp [distributeAndOverOr, evaluate, ih1, ih2]
    cases evaluate right a <;> simp [Bool.or_and_distrib_right]
  | case3 g h1 h2 =>
    have hg : distributeAndOverOr g = g := by
      rw [distributeAndOverOr.eq_def]
      split
      · exact absurd rfl (h1 _ _ _)
      · exact absurd rfl (h2 _ _ _)
      · rfl
    rw [hg]

theorem evaluate_toCNFRecursive (f : Formula) (a : TruthAssignment) :
    evaluate (toCNFRecursive f) a = evaluate f a := by
  induction f with
  | ATOM v => rfl
  | NOT g ih => rfl
  | BINARY op l r ihl ihr =>
    cases op <;>
      simp [toCNFRecursive, evaluate, ihl, ihr, evaluate_distributeOrOverAnd]

theorem evaluate_toDNFRecursive (f : Formula) (a : TruthAssignment) :
    evaluate (toDNFRecursive f) a = evaluate f a := by
  induction f with
  | ATOM v => rfl
  | NOT g ih => rfl
  | BINARY op l r ihl ihr =>
    cases op <;>
      simp [toDNFRecursive, evaluate, ihl, ihr, evaluate_distributeAndOverOr]

theorem evaluate_toNNF (f : Formula) (a : TruthAssignment) :
    evaluate (toNNF f) a = evaluate f a := by
  simp [toNNF, evaluate_pushNegationsInward, evaluate_eliminateImplications]

theorem evaluate_toCNF (f : Formula) (a : TruthAssignment) :
    evaluate (toCNF f) a = evaluate f a := by
  simp [toCNF, evaluate_toCNFRecursive, evaluate_pushNegationsInward,
    evaluate_eliminateImplications]

theorem evaluate_toDNF (f : Formula) (a : TruthAssignment) :
    evaluate (toDNF f) a = evaluate f a := by
  simp [toDNF, evaluate_toDNFRecursive, evaluate_pushNegationsInward,
    evaluate_eliminateImplications]

/-- Two formulas whose evaluations agree under every assignment are reported
equivalent: every row of the truth table of `f1 ↔ f2` comes out `true`. -/
theorem areEquivalent_of_pointwise (f g : Formula)
    (h : ∀ a, evaluate g a = evaluate f a) : areEquivalent f g = true := by
  have hall : ((generateTruthTable (.BINARY .IFF f g)).rows.all
      (fun row => row.2 == true)) = true := by
    rw [List.all_eq_true]
    intro row hrow
    simp only [generateTruthTable, List.mem_map, List.mem_range] at hrow
    obtain ⟨i, _, hrw⟩ := hrow
    subst hrw
    simp [evaluate, h]
  have hclass : classifyFormula (.BINARY .IFF f g) = .TAUTOLOGY := by
    simp only [classifyFormula]
    rw [hall]
    rfl
  simp [areEquivalent, isTautology, hclass]

/-- C1: the normal-form transforms preserve semantics: under every truth
assignment (in particular every assignment over the union of the variables of
the input and of the transformed formula), `toNNF`, `toCNF` and `toDNF`
evaluate exactly as the original formula, and consequently `areEquivalent`
reports each transform equivalent to its input. -/
theorem claim_C1_normal_forms_preserve_semantics (f : Formula) (a : TruthAssignment) :
    evaluate (toNNF f) a = evaluate f a ∧
    evaluate (toCNF f) a = evaluate f a ∧
    evaluate (toDNF f) a = evaluate f a ∧
    areEquivalent f (toNNF f) = true ∧
    areEquivalent f (toCNF f) = true ∧
    areEquivalent f (toDNF f) = true :=
  ⟨evaluate_toNNF f a, evaluate_toCNF f a, evaluate_toDNF f a,
   areEquivalent_of_pointwise f _ (evaluate_toNNF f),
   areEquivalent_of_pointwise f _ (evaluate_toCNF f),
   areEquivalent_of_pointwise f _ (evaluate_toDNF f)⟩

/-! ## Evaluator totality and missing atoms (C9) -/

/-- C9: `evaluate` is total over well-formed formulas and arbitrary (possibly
partial) assignments — it always returns one of the two booleans — and an
`ATOM` whose name is not a key of the assignment evaluates to `false`. -/
theorem claim_C9_evaluate_total_and_missing_atom_false
    (f : Formula) (a : TruthAssignment) (v : String)
    (h : a.lookup v = none) :
    (evaluate f a = true ∨ evaluate f a = false) ∧
    evaluate (.ATOM v) a = false := by
  refine ⟨?_, ?_⟩
  · cases evaluate f a <;> simp
  · simp [evaluate, h]

theorem claim_C9_witness :
    (([("P", true)] : TruthAssignment).lookup "Q" = none) ∧
    ((evaluate (.NOT (.ATOM "P")) [("P", true)] = true ∨
      evaluate (.NOT (.ATOM "P")) [("P", true)] = false) ∧
     evaluate (.ATOM "Q") [("P", true)] = false) :=
  ⟨by decide,
   claim_C9_evaluate_total_and_missing_atom_false
     (.NOT (.ATOM "P")) [("P", true)] "Q" (by decide)⟩

/-! ## Truth-table shape (C3) -/

theorem getVariables_nodup (f : Formula) : (getVariables f).Nodup := by
  induction f with
  | ATOM v => simp [getVariables]
  | NOT g ih => simpa [getVariables] using ih
  | BINARY op l r ihl ihr => simp [getVariables, List.nodup_dedup]

/-- Looking up the `j`-th variable in the assignment built by `rowAssignment`
yields bit `n - 1 - (j0 + j)` of `x`, provided the variable list has no
duplicates. -/
theorem lookup_rowAssignment (vs : List String) (n j0 x : Nat)
    (hnd : vs.Nodup) (j : Nat) (hj : j < vs.length) :
    (rowAssignment vs n j0 x).lookup (vs.get ⟨j, hj⟩)
      = some (x.testBit (n - 1 - (j0 + j))) := by
  induction vs generalizing j0 j with
  | nil => exact absurd hj (by simp)
  | cons v vs ih =>
    rcases j with _ | j
    · simp [rowAssignment, List.lookup]
    · have jlt : j < vs.length := by simpa using Nat.lt_of_succ_lt_succ hj
      have hvnotin : v ∉ vs := (List.nodup_cons.mp hnd).1
      have hmem : vs.get ⟨j, jlt⟩ ∈ vs := List.get_mem vs j jlt
      have hne : (vs.get ⟨j, jlt⟩ == v) = false := by
        rw [beq_eq_false_iff_ne]
        intro hEq
        exact hvnotin (hEq ▸ hmem)
      have hrec := ih (j0 + 1) (List.nodup_cons.mp hnd).2 j jlt
      simp only [rowAssignment, List.get, List.lookup, hne]
      rw [hrec]
      congr 2
      omega

/-- C3: shape of `generateTruthTable f`.  The variable list is sorted (in the
code-unit order used by JS `sort()`) and duplicate-free, it carries exactly
the variables of `f`; there are exactly `2 ^ n` rows (hence one row when
`n = 0`); row `i` assigns variable `j` the value of bit `n - 1 - j` of
`2 ^ n - 1 - i` — so row `0` is the all-true assignment and the final row is
the all-false assignment — and each row's result is `evaluate` of the
formula at that row's assignment. -/
theorem claim_C3_truth_table_shape (f : Formula) :
    List.Sorted strLe (generateTruthTable f).vars ∧
    (generateTruthTable f).vars.Nodup ∧
    (∀ v, v ∈ (generateTruthTable f).vars ↔ v ∈ getVariables f) ∧
    (generateTruthTable f).rows.length = 2 ^ (generateTruthTable f).vars.length ∧
    ((generateTruthTable f).vars.length = 0 → (generateTruthTable f).rows.length = 1) ∧
    (∀ i (hi : i < (generateTruthTable f).rows.length)
        (j : Nat) (hj : j < (generateTruthTable f).vars.length),
      ((generateTruthTable f).rows.get ⟨i, hi⟩).1.lookup
          ((generateTruthTable f).vars.get ⟨j, hj⟩)
        = some ((2 ^ (generateTruthTable f).vars.length - 1 - i).testBit
            ((generateTruthTable f).vars.length - 1 - j))) ∧
    (∀ (h0 : 0 < (generateTruthTable f).rows.length)
        (j : Nat) (hj : j < (generateTruthTable f).vars.length),
      ((generateTruthTable f).rows.get ⟨0, h0⟩).1.lookup
          ((generateTruthTable f).vars.get ⟨j, hj⟩) = some true) ∧
    (∀ (hl : (generateTruthTable f).rows.length - 1 < (generateTruthTable f).rows.length)
        (j : Nat) (hj : j < (generateTruthTable f).vars.length),
      ((generateTruthTable f).rows.get
          ⟨(generateTruthTable f).rows.length - 1, hl⟩).1.lookup
          ((generateTruthTable f).vars.get ⟨j, hj⟩) = some false) ∧
    (∀ i (hi : i < (generateTruthTable f).rows.length),
      ((generateTruthTable f).rows.get ⟨i, hi⟩).2
        = evaluate f ((generateTruthTable f).rows.get ⟨i, hi⟩).1) := by
  have hperm : (List.insertionSort strLe (getVariables f)).Perm (getVariables f) :=
    List.perm_insertionSort strLe (getVariables f)
  have hnd : (generateTruthTable f).vars.Nodup := by
    simpa [generateTruthTable] using
      (hperm.nodup_iff.mpr (getVariables_nodup f))
  have hvars : (generateTruthTable f).vars = List.insertionSort strLe (getVariables f) := rfl
  have hlen : (generateTruthTable f).rows.length
      = 2 ^ (generateTruthTable f).vars.length := by
    simp [generateTruthTable]
  have hget : ∀ i (hi : i < (generateTruthTable f).rows.length),
      (generateTruthTable f).rows.get ⟨i, hi⟩
        = (rowAssignment (generateTruthTable f).vars
            (generateTruthTable f).vars.length 0
            (2 ^ (generateTruthTable f).vars.length - 1 - i),
           evaluate f (rowAssignment (generateTruthTable f).vars
            (generateTruthTable f).vars.length 0
            (2 ^ (generateTruthTable f).vars.length - 1 - i))) := by
    intro i hi
    simp [generateTruthTable, List.get_eq_getElem, List.getElem_map,
      List.getElem_range]
  have hlookup : ∀ i (hi : i < (generateTruthTable f).rows.length)
      (j : Nat) (hj : j < (generateTruthTable f).vars.length),
      ((generateTruthTable f).rows.get ⟨i, hi⟩).1.lookup
          ((generateTruthTable f).vars.get ⟨j, hj⟩)
        = some ((2 ^ (generateTruthTable f).vars.length - 1 - i).testBit
            ((generateTruthTable f).vars.length - 1 - j)) := by
    intro i hi j hj
    rw [hget i hi]
    simpa using lookup_rowAssignment (generateTruthTable f).vars
      (generateTruthTable f).vars.length 0
      (2 ^ (generateTruthTable f).vars.length - 1 - i) hnd j hj
  refine ⟨?_, hnd, ?_, hlen, ?_, hlookup, ?_, ?_, ?_⟩
  · rw [hvars]
    exact List.sorted_insertionSort strLe (getVariables f)
  · intro v
    rw [hvars]
    exact hperm.mem_iff
  · intro h0
    rw [hlen, h0]
    rfl
  · intro h0 j hj
    rw [hlookup 0 h0 j hj]
    have hjn : (generateTruthTable f).vars.length - 1 - j
        < (generateTruthTable f).vars.length := by omega
    simp [Nat.testBit_two_pow_sub_one, hjn]
  · intro hl j hj
    rw [hlookup _ hl j hj]
    rw [hlen]
    have hx : 2 ^ (generateTruthTable f).vars.length - 1
        - (2 ^ (generateTruthTable f).vars.length - 1) = 0 := by omega
    rw [hx]
    simp [Nat.zero_testBit]
  · intro i hi
    rw [hget i hi]

/-! ## Grading claims (C5, C6, C7, C10) -/

/-- C5: `gradeSubmission` is total at its boundary (its Lean model returns a
`GradingResult` for every exercise record and every answer shape, including
`null` and ill-shaped ones).  Whatever the dispatched branch produces is
returned as is, and any exception a branch throws (an `Except.error` of
`gradeCore`) is caught at the dispatcher boundary and becomes a result with
`isCorrect = false`, `score = 0` and a feedback message. -/
theorem claim_C5_gradeSubmission_total_catches_errors
    (ex : ExerciseData) (ans : Answer) :
    (∀ r, gradeCore ex ans = .ok r → gradeSubmission ex ans = r) ∧
    (∀ e, gradeCore ex ans = .error e →
      (gradeSubmission ex ans).isCorrect = false ∧
      (gradeSubmission ex ans).score = .rat 0 ∧
      (gradeSubmission ex ans).feedback = "Error al evaluar: " ++ e) := by
  refine ⟨fun r hr => ?_, fun e he => ?_⟩
  · simp [gradeSubmission, hr]
  · simp [gradeSubmission, he]

theorem claim_C5_witness :
    (gradeCore
        { type := .MULTIPLE_CHOICE
          content := .multipleChoice ⟨true⟩
          solution := .multipleChoice ⟨["a"]⟩ }
        Answer.null
      = .error "studentAnswer.forEach is not a function") ∧
    ((gradeSubmission
        { type := .MULTIPLE_CHOICE
          content := .multipleChoice ⟨true⟩
          solution := .multipleChoice ⟨["a"]⟩ }
        Answer.null).isCorrect = false ∧
     (gradeSubmission
        { type := .MULTIPLE_CHOICE
          content := .multipleChoice ⟨true⟩
          solution := .multipleChoice ⟨["a"]⟩ }
        Answer.null).score = .rat 0 ∧
     (gradeSubmission
        { type := .MULTIPLE_CHOICE
          content := .multipleChoice ⟨true⟩
          solution := .multipleChoice ⟨["a"]⟩ }
        Answer.null).feedback
       = "Error al evaluar: studentAnswer.forEach is not a function") :=
  ⟨rfl,
   (claim_C5_gradeSubmission_total_catches_errors _ _).2
     "studentAnswer.forEach is not a function" rfl⟩

/-- C6 (code bug): a `MULTIPLE_CHOICE` exercise with `allowMultiple = true`
and an empty `correctOptionIds` list, graded against an empty selection,
computes `(0 - 0) / 0 = NaN` and `Math.max(0, NaN) = NaN`: the returned score
is `NaN`, which does not satisfy `0 ≤ score ≤ 1` (and the code's own comment
documents `score` as `0.0 to 1.0`).  The result even has `isCorrect = true`. -/
theorem claim_C6_empty_multi_choice_score_is_nan :
    (gradeSubmission
        { type := .MULTIPLE_CHOICE
          content := .multipleChoice ⟨true⟩
          solution := .multipleChoice ⟨[]⟩ }
        (.strList [])).score = JSNum.nan ∧
    (jsLe (.rat 0)
        (gradeSubmission
          { type := .MULTIPLE_CHOICE
            content := .multipleChoice ⟨true⟩
            solution := .multipleChoice ⟨[]⟩ }
          (.strList [])).score
      && jsLe
        (gradeSubmission
          { type := .MULTIPLE_CHOICE
            content := .multipleChoice ⟨true⟩
            solution := .multipleChoice ⟨[]⟩ }
          (.strList [])).score (.rat 1)) = false ∧
    (gradeSubmission
        { type := .MULTIPLE_CHOICE
          content := .multipleChoice ⟨true⟩
          solution := .multipleChoice ⟨[]⟩ }
        (.strList [])).isCorrect = true := by
  refine ⟨by decide, by decide, by decide⟩

/-- C7: for a `MULTIPLE_CHOICE` exercise with `allowMultiple = true` and a
list answer, the score is `max(0, (correctSelected − incorrectSelected) /
totalCorrect)` — counting, as the code does, a selection as correct when it
is in the (deduplicated) `correctOptionIds` set — and the result is fully
correct exactly when every correct option is selected and nothing else. -/
theorem claim_C7_multiple_choice_partial_credit
    (ex : ExerciseData) (content : MultipleChoiceContent)
    (solution : MultipleChoiceSolution) (ids : List String)
    (htype : ex.type = .MULTIPLE_CHOICE)
    (hc : ex.content = .multipleChoice content)
    (hs : ex.solution = .multipleChoice solution)
    (hallow : content.allowMultiple = true) :
    (gradeSubmission ex (.strList ids)).score
      = jsMax (.rat 0)
          (jsDiv
            (((ids.filter
                (fun id => solution.correctOptionIds.dedup.contains id)).length : Int)
              - ((ids.filter
                (fun id => !solution.correctOptionIds.dedup.contains id)).length : Int))
            (solution.correctOptionIds.dedup.length : Int)) ∧
    ((gradeSubmission ex (.strList ids)).isCorrect = true ↔
      (ids.filter (fun id => solution.correctOptionIds.dedup.contains id)).length
          = solution.correctOptionIds.dedup.length ∧
      (ids.filter (fun id => !solution.correctOptionIds.dedup.contains id)).length = 0) := by
  simp only [gradeSubmission, gradeCore, htype, hc, hs, gradeMultipleChoice,
    solutionCorrectOptionIds, contentAllowMultiple, jsNewSetCheck,
    answerAsStringArray, hallow, explOr]
  constructor
  · simp [bind, Except.bind, pure, Except.pure]
  · simp [bind, Except.bind, pure, Except.pure, Bool.and_eq_true, beq_iff_eq]

theorem claim_C7_witness :
    ((gradeSubmission
        { type := .MULTIPLE_CHOICE
          content := .multipleChoice ⟨true⟩
          solution := .multipleChoice ⟨["a", "b", "c"]⟩ }
        (.strList ["a", "b", "x"])).score = .rat (1 / 3) ∧
     (gradeSubmission
        { type := .MULTIPLE_CHOICE
          content := .multipleChoice ⟨true⟩
          solution := .multipleChoice ⟨["a", "b", "c"]⟩ }
        (.strList ["a", "b", "x"])).isCorrect = false) := by
  have h := claim_C7_multiple_choice_partial_credit
    { type := .MULTIPLE_CHOICE
      content := .multipleChoice ⟨true⟩
      solution := .multipleChoice ⟨["a", "b", "c"]⟩ }
    ⟨true⟩ ⟨["a", "b", "c"]⟩ ["a", "b", "x"] rfl rfl rfl rfl
  refine ⟨?_, ?_⟩
  · rw [h.1]
    simp +decide [jsDiv, jsMax]
  · rw [Bool.eq_false_iff]
    intro htrue
    have := h.2.mp htrue
    revert this
    decide

/-- C10: grading a `TRUTH_TABLE` exercise whose `hiddenCells` list is empty
yields `isCorrect = true` (the per-cell check is vacuous) together with
`score = 0` (the `totalCells > 0` guard), for any answer and any solution
blob — so `isCorrect = true` does not coincide with `score = 1` here. -/
theorem claim_C10_empty_hidden_cells_correct_but_zero_score
    (ex : ExerciseData) (ans : Answer) (c : TruthTableContent)
    (htype : ex.type = .TRUTH_TABLE)
    (hcontent : ex.content = .truthTable c)
    (hcells : c.hiddenCells = []) :
    (gradeSubmission ex ans).isCorrect = true ∧
    (gradeSubmission ex ans).score = .rat 0 := by
  simp [gradeSubmission, gradeCore, htype, hcontent, gradeTruthTable,
    contentHiddenCells, hcells, countTruthTableCells, bind, Except.bind,
    pure, Except.pure]

theorem claim_C10_witness :
    (gradeSubmission
        { type := .TRUTH_TABLE
          content := .truthTable ⟨"P", []⟩
          solution := .null }
        Answer.null).isCorrect = true ∧
    (gradeSubmission
        { type := .TRUTH_TABLE
          content := .truthTable ⟨"P", []⟩
          solution := .null }
        Answer.null).score = .rat 0 :=
  claim_C10_empty_hidden_cells_correct_but_zero_score _ _ ⟨"P", []⟩ rfl rfl rfl

/-! ## Dispatch coverage (C8)

Every feedback string a real grading branch (or the dispatcher's `catch`) can
produce starts with `¡`, `C`, `E`, `I` or `P`; only the `default` branch
produces the `Tipo de ejercicio no soportado: …` message, which starts with
`T`.  The lemmas below record this, branch by branch. -/

/-- Helper for the feedback-head lemmas: `some c ≠ some 'T'` for a concrete
`c`; used through definitional unfolding of the feedback string's head. -/
theorem neSomeT (c : Char) (hc : (c == 'T') = false) : some c ≠ some 'T' := by
  simp only [beq_eq_false_iff_ne, ne_eq] at hc
  exact fun h => hc (Option.some.inj h)

theorem gradeEquivalence_feedback_head (ex : ExerciseData) (ans : Answer) :
    (gradeEquivalence ex ans).feedback.data.head? ≠ some 'T' := by
  simp only [gradeEquivalence]
  repeat' split
  all_goals first
    | exact neSomeT '¡' rfl
    | exact neSomeT 'E' rfl
    | exact neSomeT 'I' rfl
    | exact neSomeT 'P' rfl
    | exact neSomeT 'C' rfl

theorem gradeMultipleChoice_ok_feedback_head (c : ContentV) (s : SolutionV)
    (ans : Answer) (expl : Option String) (r : GradingResult)
    (h : gradeMultipleChoice c s ans expl = .ok r) :
    r.feedback.data.head? ≠ some 'T' := by
  unfold gradeMultipleChoice at h
  simp only [bind, Except.bind, pure, Except.pure] at h
  repeat' split at h
  all_goals first
    | exact Except.noConfusion h
    | (rw [Except.ok.injEq] at h; subst h; exact neSomeT '¡' rfl)
    | (rw [Except.ok.injEq] at h; subst h; exact neSomeT 'E' rfl)
    | (rw [Except.ok.injEq] at h; subst h; exact neSomeT 'I' rfl)
    | (rw [Except.ok.injEq] at h; subst h; exact neSomeT 'P' rfl)
    | (rw [Except.ok.injEq] at h; subst h; exact neSomeT 'C' rfl)

theorem symbolArrangementLoop_feedback_head (na : String) (expl : Option String)
    (l : List String) :
    (symbolArrangementLoop na expl l).feedback.data.head? ≠ some 'T' := by
  induction l with
  | nil => exact neSomeT 'I' rfl
  | cons c rest ih =>
    unfold symbolArrangementLoop
    try dsimp only []
    repeat' split
    all_goals first
      | exact neSomeT '¡' rfl
      | exact neSomeT 'I' rfl
      | exact ih

theorem gradeSymbolArrangement_ok_feedback_head (s : SolutionV) (ans : Answer)
    (expl : Option String) (r : GradingResult)
    (h : gradeSymbolArrangement s ans expl = .ok r) :
    r.feedback.data.head? ≠ some 'T' := by
  unfold gradeSymbolArrangement at h
  simp only [bind, Except.bind, pure, Except.pure] at h
  repeat' split at h
  all_goals first
    | exact Except.noConfusion h
    | (rw [Except.ok.injEq] at h; subst h;
       exact symbolArrangementLoop_feedback_head _ _ _)

theorem formulationLoop_feedback_head (na : String) (expl : Option String)
    (l : List String) :
    (formulationLoop na expl l).feedback.data.head? ≠ some 'T' := by
  induction l with
  | nil => exact neSomeT 'I' rfl
  | cons c rest ih =>
    unfold formulationLoop
    try dsimp only []
    repeat' split
    all_goals first
      | exact neSomeT '¡' rfl
      | exact neSomeT 'I' rfl
      | exact ih

theorem gradeFormulation_ok_feedback_head (s : SolutionV) (ans : Answer)
    (expl : Option String) (r : GradingResult)
    (h : gradeFormulation s ans expl = .ok r) :
    r.feedback.data.head? ≠ some 'T' := by
  unfold gradeFormulation at h
  simp only [bind, Except.bind, pure, Except.pure] at h
  repeat' split at h
  all_goals first
    | exact Except.noConfusion h
    | (rw [Except.ok.injEq] at h; subst h;
       exact formulationLoop_feedback_head _ _ _)

theorem gradeValidation_ok_feedback_head (s : SolutionV) (ans : Answer)
    (expl : Option String) (r : GradingResult)
    (h : gradeValidation s ans expl = .ok r) :
    r.feedback.data.head? ≠ some 'T' := by
  unfold gradeValidation at h
  simp only [bind, Except.bind, pure, Except.pure] at h
  repeat' split at h
  all_goals first
    | exact Except.noConfusion h
    | (rw [Except.ok.injEq] at h; subst h; exact neSomeT '¡' rfl)
    | (rw [Except.ok.injEq] at h; subst h; exact neSomeT 'E' rfl)
    | (rw [Except.ok.injEq] at h; subst h; exact neSomeT 'I' rfl)
    | (rw [Except.ok.injEq] at h; subst h; exact neSomeT 'P' rfl)
    | (rw [Except.ok.injEq] at h; subst h; exact neSomeT 'C' rfl)

theorem gradeTruthTable_ok_feedback_head (c : ContentV) (s : SolutionV)
    (ans : Answer) (expl : Option String) (r : GradingResult)
    (h : gradeTruthTable c s ans expl = .ok r) :
    r.feedback.data.head? ≠ some 'T' := by
  unfold gradeTruthTable at h
  simp only [bind, Except.bind, pure, Except.pure] at h
  repeat' split at h
  all_goals first
    | exact Except.noConfusion h
    | (rw [Except.ok.injEq] at h; subst h; exact neSomeT '¡' rfl)
    | (rw [Except.ok.injEq] at h; subst h; exact neSomeT 'E' rfl)
    | (rw [Except.ok.injEq] at h; subst h; exact neSomeT 'I' rfl)
    | (rw [Except.ok.injEq] at h; subst h; exact neSomeT 'P' rfl)
    | (rw [Except.ok.injEq] at h; subst h; exact neSomeT 'C' rfl)

theorem normalFormLoop_ok_feedback_head (content : ContentV) (na : String)
    (expl : Option String) (l : List String) (r : GradingResult)
    (h : normalFormLoop content na expl l = .ok r) :
    r.feedback.data.head? ≠ some 'T' := by
  induction l generalizing r with
  | nil =>
    unfold normalFormLoop at h
    simp only [bind, Except.bind, pure, Except.pure] at h
    repeat' split at h
    all_goals first
      | exact Except.noConfusion h
      | (rw [Except.ok.injEq] at h; subst h; exact neSomeT '¡' rfl)
      | (rw [Except.ok.injEq] at h; subst h; exact neSomeT 'E' rfl)
      | (rw [Except.ok.injEq] at h; subst h; exact neSomeT 'I' rfl)
      | (rw [Except.ok.injEq] at h; subst h; exact neSomeT 'P' rfl)
      | (rw [Except.ok.injEq] at h; subst h; exact neSomeT 'C' rfl)
  | cons c rest ih =>
    unfold normalFormLoop at h
    simp only [bind, Except.bind, pure, Except.pure] at h
    repeat' split at h
    all_goals first
      | exact Except.noConfusion h
      | exact ih _ h
      | (rw [Except.ok.injEq] at h; subst h; exact neSomeT '¡' rfl)
      | (rw [Except.ok.injEq] at h; subst h; exact neSomeT 'E' rfl)
      | (rw [Except.ok.injEq] at h; subst h; exact neSomeT 'I' rfl)
      | (rw [Except.ok.injEq] at h; subst h; exact neSomeT 'P' rfl)
      | (rw [Except.ok.injEq] at h; subst h; exact neSomeT 'C' rfl)

theorem gradeNormalForm_ok_feedback_head (c : ContentV) (s : SolutionV)
    (ans : Answer) (expl : Option String) (r : GradingResult)
    (h : gradeNormalForm c s ans expl = .ok r) :
    r.feedback.data.head? ≠ some 'T' := by
  unfold gradeNormalForm at h
  simp only [bind, Except.bind, pure, Except.pure] at h
  repeat' split at h
  all_goals first
    | exact Except.noConfusion h
    | exact normalFormLoop_ok_feedback_head _ _ _ _ _ h

theorem gradeIdentifyFallacy_ok_feedback_head (s : SolutionV) (ans : Answer)
    (expl : Option String) (r : GradingResult)
    (h : gradeIdentifyFallacy s ans expl = .ok r) :
    r.feedback.data.head? ≠ some 'T' := by
  unfold gradeIdentifyFallacy at h
  simp only [bind, Except.bind, pure, Except.pure] at h
  repeat' split at h
  all_goals first
    | exact Except.noConfusion h
    | (rw [Except.ok.injEq] at h; subst h; exact neSomeT '¡' rfl)
    | (rw [Except.ok.injEq] at h; subst h; exact neSomeT 'E' rfl)
    | (rw [Except.ok.injEq] at h; subst h; exact neSomeT 'I' rfl)
    | (rw [Except.ok.injEq] at h; subst h; exact neSomeT 'P' rfl)
    | (rw [Except.ok.injEq] at h; subst h; exact neSomeT 'C' rfl)

/-- A successfully dispatched branch (any type but `PROOF`) never produces a
feedback string starting with `T`. -/
theorem gradeCore_ok_feedback_head (ex : ExerciseData) (ans : Answer)
    (r : GradingResult) (hne : ex.type ≠ .PROOF)
    (h : gradeCore ex ans = .ok r) :
    r.feedback.data.head? ≠ some 'T' := by
  unfold gradeCore at h
  cases htype : ex.type <;> rw [htype] at h
  case EQUIVALENCE =>
    rw [Except.ok.injEq] at h
    subst h
    exact gradeEquivalence_feedback_head _ _
  case MULTIPLE_CHOICE => exact gradeMultipleChoice_ok_feedback_head _ _ _ _ _ h
  case SYMBOL_ARRANGEMENT => exact gradeSymbolArrangement_ok_feedback_head _ _ _ _ h
  case FORMULATION => exact gradeFormulation_ok_feedback_head _ _ _ _ h
  case VALIDATION => exact gradeValidation_ok_feedback_head _ _ _ _ h
  case TRUTH_TABLE => exact gradeTruthTable_ok_feedback_head _ _ _ _ _ h
  case PROOF => exact absurd htype hne
  case NORMAL_FORM => exact gradeNormalForm_ok_feedback_head _ _ _ _ _ h
  case IDENTIFY_FALLACY => exact gradeIdentifyFallacy_ok_feedback_head _ _ _ _ h

/-- C8 counterexample: the dispatcher has no `PROOF` case, so a `PROOF`
exercise falls through to the `default` "unsupported exercise type" result —
the claim that all nine types reach a type-specific scoring branch is false. -/
theorem claim_C8_counterexample :
    gradeSubmission
        { type := .PROOF, content := .null, solution := .null } (.str "x")
      = { isCorrect := false, score := .rat 0,
          feedback := "Tipo de ejercicio no soportado: PROOF",
          explanation := none } := rfl

/-- C8 (amended): `gradeSubmission` returns the `Tipo de ejercicio no
soportado` default exactly for the `PROOF` exercise type; the other eight
types always dispatch to their type-specific scoring branch (whose results,
including the dispatcher's error conversions, never carry that feedback). -/
theorem claim_C8_amended_eight_types_dispatch_proof_falls_through
    (ex : ExerciseData) (ans : Answer) :
    ((gradeSubmission ex ans).feedback
        = "Tipo de ejercicio no soportado: " ++ exerciseTypeName ex.type)
      ↔ ex.type = .PROOF := by
  constructor
  · intro h
    by_contra hne
    rcases hcore : gradeCore ex ans with e | r
    · have hfb : (gradeSubmission ex ans).feedback = "Error al evaluar: " ++ e := by
        simp [gradeSubmission, hcore]
      rw [hfb] at h
      have hhead := congrArg (fun s => s.data.head?) h
      have hET : (some 'E' : Option Char) = some 'T' := hhead
      exact absurd hET (by decide)
    · have hfb : gradeSubmission ex ans = r := by
        simp [gradeSubmission, hcore]
      have hhead := gradeCore_ok_feedback_head ex ans r hne hcore
      rw [hfb] at h
      rw [h] at hhead
      exact hhead rfl
  · intro h
    have : gradeCore ex ans
        = .ok { isCorrect := false, score := .rat 0,
                feedback := "Tipo de ejercicio no soportado: "
                  ++ exerciseTypeName ex.type,
                explanation := none } := by
      unfold gradeCore
      rw [h]
    simp [gradeSubmission, this]

theorem claim_C8_witness :
    (gradeSubmission
        { type := .PROOF, content := .null, solution := .null }
        Answer.null).feedback
      = "Tipo de ejercicio no soportado: "
        ++ exerciseTypeName ExerciseType.PROOF :=
  (claim_C8_amended_eight_types_dispatch_proof_falls_through _ _).mpr rfl

theorem claim_C3_witness :
    ((generateTruthTable (.BINARY .AND (.ATOM "Q") (.ATOM "P"))).rows.get
        ⟨1, by decide⟩).1.lookup
        ((generateTruthTable (.BINARY .AND (.ATOM "Q") (.ATOM "P"))).vars.get
          ⟨0, by decide⟩)
      = some ((2 ^ (generateTruthTable
            (.BINARY .AND (.ATOM "Q") (.ATOM "P"))).vars.length - 1 - 1).testBit
          ((generateTruthTable
            (.BINARY .AND (.ATOM "Q") (.ATOM "P"))).vars.length - 1 - 0)) :=
  (claim_C3_truth_table_shape
    (.BINARY .AND (.ATOM "Q") (.ATOM "P"))).2.2.2.2.2.1 1 (by decide) 0 (by decide)

/-! ## Tokenizer lemmas (C2/C4) -/

theorem takeWhile_append_of_all {α} (p : α → Bool) (l r : List α)
    (hl : l.all p = true) (hr : ∀ c cs2, r = c :: cs2 → p c = false) :
    (l ++ r).takeWhile p = l ∧ (l ++ r).dropWhile p = r := by
  induction l with
  | nil =>
    cases r with
    | nil => simp
    | cons c cs2 =>
      have := hr c cs2 rfl
      simp [List.takeWhile, List.dropWhile, this]
  | cons a l ih =>
    simp only [List.all_cons, Bool.and_eq_true] at hl
    have := ih hl.2
    simp [List.takeWhile, List.dropWhile, hl.1, this.1, this.2]

theorem letter_not_whitespace (c : Char) (h : isAsciiLetter c = true) :
    isWhitespaceChar c = false := by
  simp only [isAsciiLetter, Bool.or_eq_true, Bool.and_eq_true, decide_eq_true_eq] at h
  simp only [isWhitespaceChar, Bool.or_eq_false_iff, beq_eq_false_iff_ne, ne_eq]
  omega

theorem tokenize_space (cs : List Char) : tokenize (' ' :: cs) = tokenize cs := by
  rw [tokenize.eq_def]
  simp only [show isWhitespaceChar ' ' = true from rfl, if_true]

theorem tokenize_atom (v : String) (rest : List Char)
    (hv : validAtomName v = true) (hf : goodFollow rest = true) :
    tokenize (v.data ++ rest) = (tokenize rest).map (Token.ATOM v :: ·) := by
  rcases hd : v.data with _ | ⟨c, cs⟩
  · rw [validAtomName, hd] at hv
    exact absurd hv (by simp)
  · rw [validAtomName, hd] at hv
    simp only [Bool.and_eq_true] at hv
    have hrfalse : ∀ x xs2, rest = x :: xs2 → isAtomChar x = false := by
      intro x xs2 hx
      rw [hx] at hf
      simp only [goodFollow, Bool.or_eq_true, beq_iff_eq] at hf
      rcases hf with hsp | hrp
      · subst hsp; decide
      · subst hrp; decide
    have htw := takeWhile_append_of_all isAtomChar cs rest hv.2 hrfalse
    have hws := letter_not_whitespace c hv.1
    rw [List.cons_append, tokenize.eq_def]
    simp only [hws, hv.1, Bool.false_eq_true, if_false, if_true, htw.1, htw.2]
    have hmk : String.mk (c :: cs) = v := by
      cases v
      simp at hd
      rw [hd]
    rw [hmk]

theorem tokenize_lparen (cs : List Char) :
    tokenize ('(' :: cs) = (tokenize cs).map (Token.LPAREN :: ·) := by
  rw [tokenize.eq_def]
  simp +decide

theorem tokenize_rparen (cs : List Char) :
    tokenize (')' :: cs) = (tokenize cs).map (Token.RPAREN :: ·) := by
  rw [tokenize.eq_def]
  simp +decide

theorem tokenize_neg (cs : List Char) :
    tokenize ('¬' :: cs) = (tokenize cs).map (Token.NOT :: ·) := by
  rw [tokenize.eq_def]
  simp +decide

theorem tokenize_tilde (cs : List Char) :
    tokenize ('~' :: cs) = (tokenize cs).map (Token.NOT :: ·) := by
  rw [tokenize.eq_def]
  simp +decide

theorem tokenize_wedge (cs : List Char) :
    tokenize ('∧' :: cs) = (tokenize cs).map (Token.AND :: ·) := by
  rw [tokenize.eq_def]
  simp +decide

theorem tokenize_amp (cs : List Char) :
    tokenize ('&' :: cs) = (tokenize cs).map (Token.AND :: ·) := by
  rw [tokenize.eq_def]
  simp +decide

theorem tokenize_vee (cs : List Char) :
    tokenize ('∨' :: cs) = (tokenize cs).map (Token.OR :: ·) := by
  rw [tokenize.eq_def]
  simp +decide

theorem tokenize_pipe (cs : List Char) :
    tokenize ('|' :: cs) = (tokenize cs).map (Token.OR :: ·) := by
  rw [tokenize.eq_def]
  simp +decide

theorem tokenize_arrow (cs : List Char) :
    tokenize ('→' :: cs) = (tokenize cs).map (Token.IMPLIES :: ·) := by
  rw [tokenize.eq_def]
  simp +decide

theorem tokenize_dash_gt (cs : List Char) :
    tokenize ('-' :: '>' :: cs) = (tokenize cs).map (Token.IMPLIES :: ·) := by
  rw [tokenize.eq_def]
  simp +decide

theorem tokenize_iff_sym (cs : List Char) :
    tokenize ('↔' :: cs) = (tokenize cs).map (Token.IFF :: ·) := by
  rw [tokenize.eq_def]
  simp +decide

theorem tokenize_lt_dash_gt (cs : List Char) :
    tokenize ('<' :: '-' :: '>' :: cs) = (tokenize cs).map (Token.IFF :: ·) := by
  rw [tokenize.eq_def]
  simp +decide

theorem tokenize_print_wrapped (g : Formula)
    (ihg : ∀ rest ts, atomsValid g = true → goodFollow rest = true →
      tokenize rest = .ok ts →
      tokenize ((formulaToString g).data ++ rest) = .ok (tokList g ++ ts))
    (rest : List Char) (ts : List Token)
    (hav : atomsValid g = true) (hts : tokenize rest = .ok ts) :
    tokenize (("(" ++ formulaToString g ++ ")").data ++ rest)
      = .ok ((.LPAREN :: (tokList g ++ [.RPAREN])) ++ ts) := by
  have h1 : tokenize (')' :: rest) = .ok (.RPAREN :: ts) := by
    rw [tokenize_rparen, hts]
    rfl
  have h2 := ihg (')' :: rest) (.RPAREN :: ts) hav rfl h1
  have hd : ("(" ++ formulaToString g ++ ")").data
      = '(' :: ((formulaToString g).data ++ [')']) := by
    simp [String.data_append, show ("(" : String).data = ['('] from rfl,
      show (")" : String).data = [')'] from rfl]
  rw [hd, List.cons_append, tokenize_lparen, List.append_assoc,
    List.singleton_append, h2]
  simp [Except.map]

theorem tokenize_mid (op : Connective) (X : List Char) (ts : List Token)
    (h : tokenize X = .ok ts) :
    tokenize (' ' :: ((connectiveSymbol op).data ++ (' ' :: X)))
      = .ok (opToken op :: ts) := by
  rw [tokenize_space]
  cases op with
  | AND =>
    rw [show (connectiveSymbol Connective.AND).data = ['∧'] from rfl,
      List.cons_append, List.nil_append, tokenize_wedge, tokenize_space, h]
    rfl
  | OR =>
    rw [show (connectiveSymbol Connective.OR).data = ['∨'] from rfl,
      List.cons_append, List.nil_append, tokenize_vee, tokenize_space, h]
    rfl
  | IMPLIES =>
    rw [show (connectiveSymbol Connective.IMPLIES).data = ['→'] from rfl,
      List.cons_append, List.nil_append, tokenize_arrow, tokenize_space, h]
    rfl
  | IFF =>
    rw [show (connectiveSymbol Connective.IFF).data = ['↔'] from rfl,
      List.cons_append, List.nil_append, tokenize_iff_sym, tokenize_space, h]
    rfl

/-- Printer decomposition at an `AND` node. -/
theorem formulaToString_AND (l r : Formula) :
    formulaToString (.BINARY .AND l r)
      = printAndChild l ++ " " ++ connectiveSymbol .AND ++ " " ++ printAtomChild r := by
  rcases l with v | g | ⟨lop, a, b⟩ <;> rcases r with w | g2 | ⟨rop, c, d⟩ <;>
    first
      | rfl
      | (cases lop <;> cases rop <;> rfl)
      | (cases lop <;> rfl)
      | (cases rop <;> rfl)

/-- Printer decomposition at an `OR` node. -/
theorem formulaToString_OR (l r : Formula) :
    formulaToString (.BINARY .OR l r)
      = printOrChild l ++ " " ++ connectiveSymbol .OR ++ " " ++ printAndChild r := by
  rcases l with v | g | ⟨lop, a, b⟩ <;> rcases r with w | g2 | ⟨rop, c, d⟩ <;>
    first
      | rfl
      | (cases lop <;> cases rop <;> rfl)
      | (cases lop <;> rfl)
      | (cases rop <;> rfl)

/-- Printer decomposition at an `IMPLIES` node. -/
theorem formulaToString_IMPLIES (l r : Formula) :
    formulaToString (.BINARY .IMPLIES l r)
      = printImpChild l ++ " " ++ connectiveSymbol .IMPLIES ++ " " ++ printOrChild r := by
  rcases l with v | g | ⟨lop, a, b⟩ <;> rcases r with w | g2 | ⟨rop, c, d⟩ <;>
    first
      | rfl
      | (cases lop <;> cases rop <;> rfl)
      | (cases lop <;> rfl)
      | (cases rop <;> rfl)

/-- Printer decomposition at an `IFF` node (a left child is never wrapped). -/
theorem formulaToString_IFF (l r : Formula) :
    formulaToString (.BINARY .IFF l r)
      = formulaToString l ++ " " ++ connectiveSymbol .IFF ++ " " ++ printImpChild r := by
  rcases l with v | g | ⟨lop, a, b⟩ <;> rcases r with w | g2 | ⟨rop, c, d⟩ <;>
    first
      | rfl
      | (cases lop <;> cases rop <;> rfl)
      | (cases lop <;> rfl)
      | (cases rop <;> rfl)

/-- Token-list decomposition at an `AND` node. -/
theorem tokList_AND (l r : Formula) :
    tokList (.BINARY .AND l r) = andTok l ++ Token.AND :: atomTok r := by
  rcases l with v | g | ⟨lop, a, b⟩ <;> rcases r with w | g2 | ⟨rop, c, d⟩ <;>
    first
      | rfl
      | (cases lop <;> cases rop <;> rfl)
      | (cases lop <;> rfl)
      | (cases rop <;> rfl)

/-- Token-list decomposition at an `OR` node. -/
theorem tokList_OR (l r : Formula) :
    tokList (.BINARY .OR l r) = orTok l ++ Token.OR :: andTok r := by
  rcases l with v | g | ⟨lop, a, b⟩ <;> rcases r with w | g2 | ⟨rop, c, d⟩ <;>
    first
      | rfl
      | (cases lop <;> cases rop <;> rfl)
      | (cases lop <;> rfl)
      | (cases rop <;> rfl)

/-- Token-list decomposition at an `IMPLIES` node. -/
theorem tokList_IMPLIES (l r : Formula) :
    tokList (.BINARY .IMPLIES l r) = impTok l ++ Token.IMPLIES :: orTok r := by
  rcases l with v | g | ⟨lop, a, b⟩ <;> rcases r with w | g2 | ⟨rop, c, d⟩ <;>
    first
      | rfl
      | (cases lop <;> cases rop <;> rfl)
      | (cases lop <;> rfl)
      | (cases rop <;> rfl)

/-- Token-list decomposition at an `IFF` node. -/
theorem tokList_IFF (l r : Formula) :
    tokList (.BINARY .IFF l r) = tokList l ++ Token.IFF :: impTok r := by
  rcases l with v | g | ⟨lop, a, b⟩ <;> rcases r with w | g2 | ⟨rop, c, d⟩ <;>
    first
      | rfl
      | (cases lop <;> cases rop <;> rfl)
      | (cases lop <;> rfl)
      | (cases rop <;> rfl)

/-- Character-level shape of a printed binary node. -/
theorem data_binary_split (LS RS : String) (op : Connective) (rest : List Char) :
    (LS ++ " " ++ connectiveSymbol op ++ " " ++ RS).data ++ rest
      = LS.data ++ (' ' :: ((connectiveSymbol op).data ++ (' ' :: (RS.data ++ rest)))) := by
  simp [String.data_append, show (" " : String).data = [' '] from rfl]

/-- Tokenizing a child printed in a tightest-binding position. -/
theorem tokenize_printAtomChild (g : Formula)
    (ihg : ∀ rest ts, atomsValid g = true → goodFollow rest = true →
      tokenize rest = .ok ts →
      tokenize ((formulaToString g).data ++ rest) = .ok (tokList g ++ ts))
    (rest : List Char) (ts : List Token)
    (hav : atomsValid g = true) (hgf : goodFollow rest = true)
    (hts : tokenize rest = .ok ts) :
    tokenize ((printAtomChild g).data ++ rest) = .ok (atomTok g ++ ts) := by
  cases g with
  | ATOM v => exact ihg rest ts hav hgf hts
  | NOT a => exact ihg rest ts hav hgf hts
  | BINARY op a b => exact tokenize_print_wrapped _ ihg rest ts hav hts

/-- Tokenizing a child printed in an `AND`-level position. -/
theorem tokenize_printAndChild (g : Formula)
    (ihg : ∀ rest ts, atomsValid g = true → goodFollow rest = true →
      tokenize rest = .ok ts →
      tokenize ((formulaToString g).data ++ rest) = .ok (tokList g ++ ts))
    (rest : List Char) (ts : List Token)
    (hav : atomsValid g = true) (hgf : goodFollow rest = true)
    (hts : tokenize rest = .ok ts) :
    tokenize ((printAndChild g).data ++ rest) = .ok (andTok g ++ ts) := by
  cases g with
  | ATOM v => exact ihg rest ts hav hgf hts
  | NOT a => exact ihg rest ts hav hgf hts
  | BINARY op a b =>
    cases op with
    | AND => exact ihg rest ts hav hgf hts
    | OR => exact tokenize_print_wrapped _ ihg rest ts hav hts
    | IMPLIES => exact tokenize_print_wrapped _ ihg rest ts hav hts
    | IFF => exact tokenize_print_wrapped _ ihg rest ts hav hts

/-- Tokenizing a child printed in an `OR`-level position. -/
theorem tokenize_printOrChild (g : Formula)
    (ihg : ∀ rest ts, atomsValid g = true → goodFollow rest = true →
      tokenize rest = .ok ts →
      tokenize ((formulaToString g).data ++ rest) = .ok (tokList g ++ ts))
    (rest : List Char) (ts : List Token)
    (hav : atomsValid g = true) (hgf : goodFollow rest = true)
    (hts : tokenize rest = .ok ts) :
    tokenize ((printOrChild g).data ++ rest) = .ok (orTok g ++ ts) := by
  cases g with
  | ATOM v => exact ihg rest ts hav hgf hts
  | NOT a => exact ihg rest ts hav hgf hts
  | BINARY op a b =>
    cases op with
    | AND => exact ihg rest ts hav hgf hts
    | OR => exact ihg rest ts hav hgf hts
    | IMPLIES => exact tokenize_print_wrapped _ ihg rest ts hav hts
    | IFF => exact tokenize_print_wrapped _ ihg rest ts hav hts

/-- Tokenizing a child printed in an `IMPLIES`-left position. -/
theorem tokenize_printImpChild (g : Formula)
    (ihg : ∀ rest ts, atomsValid g = true → goodFollow rest = true →
      tokenize rest = .ok ts →
      tokenize ((formulaToString g).data ++ rest) = .ok (tokList g ++ ts))
    (rest : List Char) (ts : List Token)
    (hav : atomsValid g = true) (hgf : goodFollow rest = true)
    (hts : tokenize rest = .ok ts) :
    tokenize ((printImpChild g).data ++ rest) = .ok (impTok g ++ ts) := by
  cases g with
  | ATOM v => exact ihg rest ts hav hgf hts
  | NOT a => exact ihg rest ts hav hgf hts
  | BINARY op a b =>
    cases op with
    | AND => exact ihg rest ts hav hgf hts
    | OR => exact ihg rest ts hav hgf hts
    | IMPLIES => exact ihg rest ts hav hgf hts
    | IFF => exact tokenize_print_wrapped _ ihg rest ts hav hts

/-- Tokenizing the pretty-printed form of `f` (followed by any well-delimited
suffix) yields exactly the token list `tokList f`. -/
theorem tokenize_print (f : Formula) : ∀ (rest : List Char) (ts : List Token),
    atomsValid f = true → goodFollow rest = true → tokenize rest = .ok ts →
    tokenize ((formulaToString f).data ++ rest) = .ok (tokList f ++ ts) := by
  induction f with
  | ATOM v =>
    intro rest ts hav hgf hts
    rw [show formulaToString (.ATOM v) = v from rfl, tokenize_atom v rest hav hgf, hts]
    rfl
  | NOT g ih =>
    intro rest ts hav hgf hts
    cases g with
    | ATOM v =>
      have h := ih rest ts hav hgf hts
      have hd : (formulaToString (.NOT (.ATOM v))).data ++ rest
          = '¬' :: ((formulaToString (.ATOM v)).data ++ rest) := by
        show ("¬" ++ formulaToString (.ATOM v)).data ++ rest = _
        simp [String.data_append, show ("¬" : String).data = ['¬'] from rfl]
      rw [hd, tokenize_neg, h]
      rfl
    | NOT a =>
      have h := ih rest ts hav hgf hts
      have hd : (formulaToString (.NOT (.NOT a))).data ++ rest
          = '¬' :: ((formulaToString (.NOT a)).data ++ rest) := by
        show ("¬" ++ formulaToString (.NOT a)).data ++ rest = _
        simp [String.data_append, show ("¬" : String).data = ['¬'] from rfl]
      rw [hd, tokenize_neg, h]
      rfl
    | BINARY op l r =>
      have hw := tokenize_print_wrapped (.BINARY op l r) ih rest ts hav hts
      have hd : (formulaToString (.NOT (.BINARY op l r))).data ++ rest
          = '¬' :: (("(" ++ formulaToString (.BINARY op l r) ++ ")").data ++ rest) := by
        show ("¬(" ++ formulaToString (.BINARY op l r) ++ ")").data ++ rest = _
        simp [String.data_append, show ("¬(" : String).data = ['¬', '('] from rfl,
          show ("(" : String).data = ['('] from rfl]
      rw [hd, tokenize_neg, hw]
      rfl
  | BINARY op l r ihl ihr =>
    intro rest ts hav hgf hts
    have hav2 : atomsValid l = true ∧ atomsValid r = true := by
      have hb : (atomsValid l && atomsValid r) = true := hav
      simpa using hb
    obtain ⟨havl, havr⟩ := hav2
    cases op with
    | AND =>
      have hR := tokenize_printAtomChild r ihr rest ts havr hgf hts
      have hMid := tokenize_mid .AND _ _ hR
      have hL : tokenize ((printAndChild l).data
            ++ (' ' :: ((connectiveSymbol .AND).data
              ++ (' ' :: ((printAtomChild r).data ++ rest)))))
          = .ok (andTok l ++ (Token.AND :: (atomTok r ++ ts))) :=
        tokenize_printAndChild l ihl _ _ havl rfl hMid
      rw [formulaToString_AND, data_binary_split, hL, tokList_AND]
      simp [List.append_assoc]
    | OR =>
      have hR := tokenize_printAndChild r ihr rest ts havr hgf hts
      have hMid := tokenize_mid .OR _ _ hR
      have hL : tokenize ((printOrChild l).data
            ++ (' ' :: ((connectiveSymbol .OR).data
              ++ (' ' :: ((printAndChild r).data ++ rest)))))
          = .ok (orTok l ++ (Token.OR :: (andTok r ++ ts))) :=
        tokenize_printOrChild l ihl _ _ havl rfl hMid
      rw [formulaToString_OR, data_binary_split, hL, tokList_OR]
      simp [List.append_assoc]
    | IMPLIES =>
      have hR := tokenize_printOrChild r ihr rest ts havr hgf hts
      have hMid := tokenize_mid .IMPLIES _ _ hR
      have hL : tokenize ((printImpChild l).data
            ++ (' ' :: ((connectiveSymbol .IMPLIES).data
              ++ (' ' :: ((printOrChild r).data ++ rest)))))
          = .ok (impTok l ++ (Token.IMPLIES :: (orTok r ++ ts))) :=
        tokenize_printImpChild l ihl _ _ havl rfl hMid
      rw [formulaToString_IMPLIES, data_binary_split, hL, tokList_IMPLIES]
      simp [List.append_assoc]
    | IFF =>
      have hR := tokenize_printImpChild r ihr rest ts havr hgf hts
      have hMid := tokenize_mid .IFF _ _ hR
      have hL : tokenize ((formulaToString l).data
            ++ (' ' :: ((connectiveSymbol .IFF).data
              ++ (' ' :: ((printImpChild r).data ++ rest)))))
          = .ok (tokList l ++ (Token.IFF :: (impTok r ++ ts))) :=
        ihl _ _ havl rfl hMid
      rw [formulaToString_IFF, data_binary_split, hL, tokList_IFF]
      simp [List.append_assoc]

/-!
Step lemmas for the parser, at the level of the plain-value projections
(`parseAtomR` and friends): each mirrors one transition of the corresponding
TS parsing method.
-/

/-- An `ok` result of a projected parser comes from an `ok` of the bundled one. -/
theorem map_val_ok {α : Type} {P : α → Prop} (e : Except String {p : α // P p})
    (v : α) (h : e.map Subtype.val = .ok v) : ∃ hp : P v, e = .ok ⟨v, hp⟩ := by
  cases e with
  | error s => simp [Except.map] at h
  | ok s =>
    obtain ⟨w, hw⟩ := s
    simp [Except.map] at h
    subst h
    exact ⟨hw, rfl⟩

theorem parseAtomR_atom (v : String) (ts : List Token) :
    parseAtomR (.ATOM v :: ts) = .ok (.ATOM v, ts) := by
  unfold parseAtomR
  rw [parseAtom.eq_def]
  rfl

theorem parseAtomR_lparen (ts2 : List Token) (f : Formula) (rest2 : List Token)
    (h : parseIffR ts2 = .ok (f, .RPAREN :: rest2)) :
    parseAtomR (.LPAREN :: ts2) = .ok (f, rest2) := by
  unfold parseIffR at h
  obtain ⟨hp, he⟩ := map_val_ok _ _ h
  unfold parseAtomR
  rw [parseAtom.eq_def]
  simp only [he]
  rfl

theorem parseNotR_not (ts2 : List Token) (f : Formula) (rest : List Token)
    (h : parseNotR ts2 = .ok (f, rest)) :
    parseNotR (.NOT :: ts2) = .ok (.NOT f, rest) := by
  unfold parseNotR at h ⊢
  obtain ⟨hp, he⟩ := map_val_ok _ _ h
  rw [parseNot.eq_def]
  simp only [he]
  rfl

theorem parseNotR_other (ts : List Token) (h : noNotHead ts = true) :
    parseNotR ts = parseAtomR ts := by
  unfold parseNotR parseAtomR
  rw [parseNot.eq_def]
  cases ts with
  | nil => rfl
  | cons t ts2 => cases t <;> first | rfl | (exact absurd h (by simp [noNotHead]))

theorem parseAndR_step (ts : List Token) (f : Formula) (rest : List Token)
    (h : parseNotR ts = .ok (f, rest)) :
    parseAndR ts = parseAndLoopR f rest := by
  unfold parseNotR at h
  obtain ⟨hp, he⟩ := map_val_ok _ _ h
  unfold parseAndR parseAndLoopR
  rw [parseAnd.eq_def]
  simp only [he]
  generalize parseAndLoop f rest = X
  cases X with
  | error e => rfl
  | ok s => obtain ⟨⟨g, r2⟩, hb⟩ := s; rfl

theorem parseAndLoopR_and (ts2 : List Token) (left right : Formula) (rest : List Token)
    (h : parseNotR ts2 = .ok (right, rest)) :
    parseAndLoopR left (.AND :: ts2) = parseAndLoopR (.BINARY .AND left right) rest := by
  unfold parseNotR at h
  obtain ⟨hp, he⟩ := map_val_ok _ _ h
  unfold parseAndLoopR
  rw [parseAndLoop.eq_def]
  simp only [he]
  generalize parseAndLoop (Formula.BINARY Connective.AND left right) rest = X
  cases X with
  | error e => rfl
  | ok s => obtain ⟨⟨g, r2⟩, hb⟩ := s; rfl

theorem parseAndLoopR_exit (left : Formula) (ts : List Token) (h : noAndHead ts = true) :
    parseAndLoopR left ts = .ok (left, ts) := by
  unfold parseAndLoopR
  rw [parseAndLoop.eq_def]
  cases ts with
  | nil => rfl
  | cons t ts2 => cases t <;> first | rfl | (exact absurd h (by simp [noAndHead]))

theorem parseOrR_step (ts : List Token) (f : Formula) (rest : List Token)
    (h : parseAndR ts = .ok (f, rest)) :
    parseOrR ts = parseOrLoopR f rest := by
  unfold parseAndR at h
  obtain ⟨hp, he⟩ := map_val_ok _ _ h
  unfold parseOrR parseOrLoopR
  rw [parseOr.eq_def]
  simp only [he]
  generalize parseOrLoop f rest = X
  cases X with
  | error e => rfl
  | ok s => obtain ⟨⟨g, r2⟩, hb⟩ := s; rfl

theorem parseOrLoopR_or (ts2 : List Token) (left right : Formula) (rest : List Token)
    (h : parseAndR ts2 = .ok (right, rest)) :
    parseOrLoopR left (.OR :: ts2) = parseOrLoopR (.BINARY .OR left right) rest := by
  unfold parseAndR at h
  obtain ⟨hp, he⟩ := map_val_ok _ _ h
  unfold parseOrLoopR
  rw [parseOrLoop.eq_def]
  simp only [he]
  generalize parseOrLoop (Formula.BINARY Connective.OR left right) rest = X
  cases X with
  | error e => rfl
  | ok s => obtain ⟨⟨g, r2⟩, hb⟩ := s; rfl

theorem parseOrLoopR_exit (left : Formula) (ts : List Token) (h : noOrHead ts = true) :
    parseOrLoopR left ts = .ok (left, ts) := by
  unfold parseOrLoopR
  rw [parseOrLoop.eq_def]
  cases ts with
  | nil => rfl
  | cons t ts2 => cases t <;> first | rfl | (exact absurd h (by simp [noOrHead]))

theorem parseImpliesR_noimp (ts : List Token) (f : Formula) (rest : List Token)
    (h : parseOrR ts = .ok (f, rest)) (hno : noImpHead rest = true) :
    parseImpliesR ts = .ok (f, rest) := by
  unfold parseOrR at h
  obtain ⟨hp, he⟩ := map_val_ok _ _ h
  unfold parseImpliesR
  rw [parseImplies.eq_def]
  simp only [he]
  cases rest with
  | nil => rfl
  | cons t ts2 => cases t <;> first | rfl | (exact absurd hno (by simp [noImpHead]))

theorem parseImpliesR_imp (ts : List Token) (f : Formula) (ts2 : List Token)
    (g : Formula) (rest : List Token)
    (h : parseOrR ts = .ok (f, .IMPLIES :: ts2))
    (h2 : parseImpliesR ts2 = .ok (g, rest)) :
    parseImpliesR ts = .ok (.BINARY .IMPLIES f g, rest) := by
  unfold parseOrR at h
  obtain ⟨hp, he⟩ := map_val_ok _ _ h
  unfold parseImpliesR at h2 ⊢
  obtain ⟨hp2, he2⟩ := map_val_ok _ _ h2
  rw [parseImplies.eq_def]
  simp only [he, he2]
  rfl

theorem parseIffR_step (ts : List Token) (f : Formula) (rest : List Token)
    (h : parseImpliesR ts = .ok (f, rest)) :
    parseIffR ts = parseIffLoopR f rest := by
  unfold parseImpliesR at h
  obtain ⟨hp, he⟩ := map_val_ok _ _ h
  unfold parseIffR parseIffLoopR
  rw [parseIff.eq_def]
  simp only [he]
  generalize parseIffLoop f rest = X
  cases X with
  | error e => rfl
  | ok s => obtain ⟨⟨g, r2⟩, hb⟩ := s; rfl

theorem parseIffLoopR_iff (ts2 : List Token) (left right : Formula) (rest : List Token)
    (h : parseImpliesR ts2 = .ok (right, rest)) :
    parseIffLoopR left (.IFF :: ts2) = parseIffLoopR (.BINARY .IFF left right) rest := by
  unfold parseImpliesR at h
  obtain ⟨hp, he⟩ := map_val_ok _ _ h
  unfold parseIffLoopR
  rw [parseIffLoop.eq_def]
  simp only [he]
  generalize parseIffLoop (Formula.BINARY Connective.IFF left right) rest = X
  cases X with
  | error e => rfl
  | ok s => obtain ⟨⟨g, r2⟩, hb⟩ := s; rfl

theorem parseIffLoopR_exit (left : Formula) (ts : List Token) (h : noIffHead ts = true) :
    parseIffLoopR left ts = .ok (left, ts) := by
  unfold parseIffLoopR
  rw [parseIffLoop.eq_def]
  cases ts with
  | nil => rfl
  | cons t ts2 => cases t <;> first | rfl | (exact absurd h (by simp [noIffHead]))

theorem parse_of_parseIffR (input : String) (ts : List Token) (f : Formula)
    (htok : tokenize input.data = .ok ts) (hp : parseIffR ts = .ok (f, [])) :
    parse input = .ok f := by
  unfold parseIffR at hp
  obtain ⟨hb, he⟩ := map_val_ok _ _ hp
  unfold parse
  rw [htok]
  simp only [he]

/-- A lone `ATOM` token at the `Not` level. -/
theorem parseNotR_atomTok (v : String) (ts : List Token) :
    parseNotR (.ATOM v :: ts) = .ok (.ATOM v, ts) := by
  rw [parseNotR_other (Token.ATOM v :: ts) rfl]
  exact parseAtomR_atom v ts

/-- A lone `ATOM` token at the `And` level. -/
theorem parseAndR_atom (v : String) (ts : List Token) (h : noAndHead ts = true) :
    parseAndR (.ATOM v :: ts) = .ok (.ATOM v, ts) := by
  rw [parseAndR_step _ _ _ (parseNotR_atomTok v ts)]
  exact parseAndLoopR_exit _ _ h

/-- A lone `ATOM` token at the `Or` level. -/
theorem parseOrR_atom (v : String) (ts : List Token)
    (hA : noAndHead ts = true) (hO : noOrHead ts = true) :
    parseOrR (.ATOM v :: ts) = .ok (.ATOM v, ts) := by
  rw [parseOrR_step _ _ _ (parseAndR_atom v ts hA)]
  exact parseOrLoopR_exit _ _ hO

/-- A lone `ATOM` token at the `Implies` level. -/
theorem parseImpliesR_atom (v : String) (ts : List Token)
    (hA : noAndHead ts = true) (hO : noOrHead ts = true) (hI : noImpHead ts = true) :
    parseImpliesR (.ATOM v :: ts) = .ok (.ATOM v, ts) :=
  parseImpliesR_noimp _ _ _ (parseOrR_atom v ts hA hO) hI

/-- Tokenizing an atom name followed by an already-tokenized tail. -/
theorem tokenize_atom_cons (v : String) (rest : List Char) (ts : List Token)
    (hv : validAtomName v = true) (hf : goodFollow rest = true)
    (h : tokenize rest = .ok ts) :
    tokenize (v.data ++ rest) = .ok (Token.ATOM v :: ts) := by
  rw [tokenize_atom v rest hv hf, h]
  rfl

/-- The ASCII implication separator. -/
theorem tok_mid_imp (X : List Char) (ts : List Token) (h : tokenize X = .ok ts) :
    tokenize (' ' :: '-' :: '>' :: ' ' :: X) = .ok (Token.IMPLIES :: ts) := by
  rw [tokenize_space, tokenize_dash_gt, tokenize_space, h]
  rfl

/-- The ASCII biconditional separator. -/
theorem tok_mid_iff (X : List Char) (ts : List Token) (h : tokenize X = .ok ts) :
    tokenize (' ' :: '<' :: '-' :: '>' :: ' ' :: X) = .ok (Token.IFF :: ts) := by
  rw [tokenize_space, tokenize_lt_dash_gt, tokenize_space, h]
  rfl

/-- The ASCII conjunction separator. -/
theorem tok_mid_amp (X : List Char) (ts : List Token) (h : tokenize X = .ok ts) :
    tokenize (' ' :: '&' :: ' ' :: X) = .ok (Token.AND :: ts) := by
  rw [tokenize_space, tokenize_amp, tokenize_space, h]
  rfl

/-- The ASCII disjunction separator. -/
theorem tok_mid_pipe (X : List Char) (ts : List Token) (h : tokenize X = .ok ts) :
    tokenize (' ' :: '|' :: ' ' :: X) = .ok (Token.OR :: ts) := by
  rw [tokenize_space, tokenize_pipe, tokenize_space, h]
  rfl

/-- The printer/parser round trip, proved level by level: for a formula with
tokenizer-producible atom names and no `IMPLIES` printed bare on the left of
an `IMPLIES` (the one shape `formulaToString` renders ambiguously), the
printed tokens of each precedence-level form re-parse to the formula itself.
The six conjuncts follow the parser levels: `parseNot` on `atomTok`,
`parseAnd` on `andTok` (up to the pending loop), `parseOr` on `orTok`,
`parseImplies` on `orTok` and on `impTok`, and `parseIff` on `tokList`. -/
theorem roundtrip_bundle (f : Formula) :
    atomsValid f = true → noImpliesLeftOfImplies f = true →
    (∀ ts, parseNotR (atomTok f ++ ts) = .ok (f, ts))
    ∧ (∀ ts, parseAndR (andTok f ++ ts) = parseAndLoopR f ts)
    ∧ (∀ ts, noAndHead ts = true → parseOrR (orTok f ++ ts) = parseOrLoopR f ts)
    ∧ (∀ ts, noAndHead ts = true → noOrHead ts = true → noImpHead ts = true →
        parseImpliesR (orTok f ++ ts) = .ok (f, ts))
    ∧ (∀ ts, noAndHead ts = true → noOrHead ts = true → noImpHead ts = true →
        parseImpliesR (impTok f ++ ts) = .ok (f, ts))
    ∧ (∀ ts, noAndHead ts = true → noOrHead ts = true → noImpHead ts = true →
        parseIffR (tokList f ++ ts) = parseIffLoopR f ts) := by
  induction f with
  | ATOM v =>
    intro hav hni
    have hNot : ∀ ts, parseNotR (atomTok (.ATOM v) ++ ts) = .ok (.ATOM v, ts) := by
      intro ts
      exact parseNotR_atomTok v ts
    have hAnd : ∀ ts, parseAndR (andTok (.ATOM v) ++ ts) = parseAndLoopR (.ATOM v) ts := by
      intro ts
      exact parseAndR_step _ _ _ (hNot ts)
    have hOr : ∀ ts, noAndHead ts = true →
        parseOrR (orTok (.ATOM v) ++ ts) = parseOrLoopR (.ATOM v) ts := by
      intro ts hA
      have h1 : parseAndR (andTok (.ATOM v) ++ ts) = .ok (.ATOM v, ts) := by
        rw [hAnd ts]
        exact parseAndLoopR_exit _ _ hA
      exact parseOrR_step _ _ _ h1
    have hImpOr : ∀ ts, noAndHead ts = true → noOrHead ts = true → noImpHead ts = true →
        parseImpliesR (orTok (.ATOM v) ++ ts) = .ok (.ATOM v, ts) := by
      intro ts hA hO hI
      have h1 : parseOrR (orTok (.ATOM v) ++ ts) = .ok (.ATOM v, ts) := by
        rw [hOr ts hA]
        exact parseOrLoopR_exit _ _ hO
      exact parseImpliesR_noimp _ _ _ h1 hI
    have hImp : ∀ ts, noAndHead ts = true → noOrHead ts = true → noImpHead ts = true →
        parseImpliesR (impTok (.ATOM v) ++ ts) = .ok (.ATOM v, ts) := hImpOr
    have hIff : ∀ ts, noAndHead ts = true → noOrHead ts = true → noImpHead ts = true →
        parseIffR (tokList (.ATOM v) ++ ts) = parseIffLoopR (.ATOM v) ts := by
      intro ts hA hO hI
      exact parseIffR_step _ _ _ (hImp ts hA hO hI)
    exact ⟨hNot, hAnd, hOr, hImpOr, hImp, hIff⟩
  | NOT g ih =>
    intro hav hni
    obtain ⟨gNot, gAnd, gOr, gImpOr, gImp, gIff⟩ := ih hav hni
    have hNot : ∀ ts, parseNotR (atomTok (.NOT g) ++ ts) = .ok (.NOT g, ts) := by
      intro ts
      have hd : atomTok (.NOT g) ++ ts = Token.NOT :: (atomTok g ++ ts) := by
        cases g <;> rfl
      rw [hd]
      exact parseNotR_not _ _ _ (gNot ts)
    have hAnd : ∀ ts, parseAndR (andTok (.NOT g) ++ ts) = parseAndLoopR (.NOT g) ts := by
      intro ts
      exact parseAndR_step _ _ _ (hNot ts)
    have hOr : ∀ ts, noAndHead ts = true →
        parseOrR (orTok (.NOT g) ++ ts) = parseOrLoopR (.NOT g) ts := by
      intro ts hA
      have h1 : parseAndR (andTok (.NOT g) ++ ts) = .ok (.NOT g, ts) := by
        rw [hAnd ts]
        exact parseAndLoopR_exit _ _ hA
      exact parseOrR_step _ _ _ h1
    have hImpOr : ∀ ts, noAndHead ts = true → noOrHead ts = true → noImpHead ts = true →
        parseImpliesR (orTok (.NOT g) ++ ts) = .ok (.NOT g, ts) := by
      intro ts hA hO hI
      have h1 : parseOrR (orTok (.NOT g) ++ ts) = .ok (.NOT g, ts) := by
        rw [hOr ts hA]
        exact parseOrLoopR_exit _ _ hO
      exact parseImpliesR_noimp _ _ _ h1 hI
    have hImp : ∀ ts, noAndHead ts = true → noOrHead ts = true → noImpHead ts = true →
        parseImpliesR (impTok (.NOT g) ++ ts) = .ok (.NOT g, ts) := hImpOr
    have hIff : ∀ ts, noAndHead ts = true → noOrHead ts = true → noImpHead ts = true →
        parseIffR (tokList (.NOT g) ++ ts) = parseIffLoopR (.NOT g) ts := by
      intro ts hA hO hI
      exact parseIffR_step _ _ _ (hImp ts hA hO hI)
    exact ⟨hNot, hAnd, hOr, hImpOr, hImp, hIff⟩
  | BINARY op l r ihl ihr =>
    intro hav hni
    have hb2 := hav
    simp only [atomsValid, Bool.and_eq_true] at hb2
    obtain ⟨havl, havr⟩ := hb2
    have hb3 := hni
    simp only [noImpliesLeftOfImplies, Bool.and_eq_true] at hb3
    obtain ⟨⟨hcond, hnil⟩, hnir⟩ := hb3
    obtain ⟨lNot, lAnd, lOr, lImpOr, lImp, lIff⟩ := ihl havl hnil
    obtain ⟨rNot, rAnd, rOr, rImpOr, rImp, rIff⟩ := ihr havr hnir
    cases op with
    | AND =>
      have hAnd : ∀ ts, parseAndR (andTok (.BINARY .AND l r) ++ ts)
          = parseAndLoopR (.BINARY .AND l r) ts := by
        intro ts
        have hd : andTok (.BINARY .AND l r) ++ ts
            = andTok l ++ (Token.AND :: (atomTok r ++ ts)) := by
          rw [show andTok (.BINARY .AND l r) = tokList (.BINARY .AND l r) from rfl,
            tokList_AND]
          simp [List.append_assoc]
        rw [hd, lAnd (Token.AND :: (atomTok r ++ ts)),
          parseAndLoopR_and _ _ _ _ (rNot ts)]
      have hOr : ∀ ts, noAndHead ts = true →
          parseOrR (orTok (.BINARY .AND l r) ++ ts)
            = parseOrLoopR (.BINARY .AND l r) ts := by
        intro ts hA
        have h1 : parseAndR (andTok (.BINARY .AND l r) ++ ts)
            = .ok (.BINARY .AND l r, ts) := by
          rw [hAnd ts]
          exact parseAndLoopR_exit _ _ hA
        exact parseOrR_step _ _ _ h1
      have hImpOr : ∀ ts, noAndHead ts = true → noOrHead ts = true → noImpHead ts = true →
          parseImpliesR (orTok (.BINARY .AND l r) ++ ts) = .ok (.BINARY .AND l r, ts) := by
        intro ts hA hO hI
        have h1 : parseOrR (orTok (.BINARY .AND l r) ++ ts)
            = .ok (.BINARY .AND l r, ts) := by
          rw [hOr ts hA]
          exact parseOrLoopR_exit _ _ hO
        exact parseImpliesR_noimp _ _ _ h1 hI
      have hImp : ∀ ts, noAndHead ts = true → noOrHead ts = true → noImpHead ts = true →
          parseImpliesR (impTok (.BINARY .AND l r) ++ ts)
            = .ok (.BINARY .AND l r, ts) := hImpOr
      have hIff : ∀ ts, noAndHead ts = true → noOrHead ts = true → noImpHead ts = true →
          parseIffR (tokList (.BINARY .AND l r) ++ ts)
            = parseIffLoopR (.BINARY .AND l r) ts := by
        intro ts hA hO hI
        exact parseIffR_step _ _ _ (hImp ts hA hO hI)
      have hNot : ∀ ts, parseNotR (atomTok (.BINARY .AND l r) ++ ts)
          = .ok (.BINARY .AND l r, ts) := by
        intro ts
        have h1 : parseIffR (tokList (.BINARY .AND l r) ++ (Token.RPAREN :: ts))
            = .ok (.BINARY .AND l r, Token.RPAREN :: ts) := by
          rw [hIff (Token.RPAREN :: ts) rfl rfl rfl]
          exact parseIffLoopR_exit _ _ rfl
        have h2 : parseAtomR
            (Token.LPAREN :: (tokList (.BINARY .AND l r) ++ (Token.RPAREN :: ts)))
            = .ok (.BINARY .AND l r, ts) := parseAtomR_lparen _ _ _ h1
        have hd : atomTok (.BINARY .AND l r) ++ ts
            = Token.LPAREN :: (tokList (.BINARY .AND l r) ++ (Token.RPAREN :: ts)) := by
          show (Token.LPAREN :: (tokList (.BINARY .AND l r) ++ [Token.RPAREN])) ++ ts = _
          simp [List.append_assoc]
        rw [hd, parseNotR_other
          (Token.LPAREN :: (tokList (.BINARY .AND l r) ++ (Token.RPAREN :: ts))) rfl]
        exact h2
      exact ⟨hNot, hAnd, hOr, hImpOr, hImp, hIff⟩
    | OR =>
      have hOr : ∀ ts, noAndHead ts = true →
          parseOrR (orTok (.BINARY .OR l r) ++ ts)
            = parseOrLoopR (.BINARY .OR l r) ts := by
        intro ts hA
        have hd : orTok (.BINARY .OR l r) ++ ts
            = orTok l ++ (Token.OR :: (andTok r ++ ts)) := by
          rw [show orTok (.BINARY .OR l r) = tokList (.BINARY .OR l r) from rfl,
            tokList_OR]
          simp [List.append_assoc]
        have hr1 : parseAndR (andTok r ++ ts) = .ok (r, ts) := by
          rw [rAnd ts]
          exact parseAndLoopR_exit _ _ hA
        rw [hd, lOr (Token.OR :: (andTok r ++ ts)) rfl, parseOrLoopR_or _ _ _ _ hr1]
      have hImpOr : ∀ ts, noAndHead ts = true → noOrHead ts = true → noImpHead ts = true →
          parseImpliesR (orTok (.BINARY .OR l r) ++ ts) = .ok (.BINARY .OR l r, ts) := by
        intro ts hA hO hI
        have h1 : parseOrR (orTok (.BINARY .OR l r) ++ ts)
            = .ok (.BINARY .OR l r, ts) := by
          rw [hOr ts hA]
          exact parseOrLoopR_exit _ _ hO
        exact parseImpliesR_noimp _ _ _ h1 hI
      have hImp : ∀ ts, noAndHead ts = true → noOrHead ts = true → noImpHead ts = true →
          parseImpliesR (impTok (.BINARY .OR l r) ++ ts)
            = .ok (.BINARY .OR l r, ts) := hImpOr
      have hIff : ∀ ts, noAndHead ts = true → noOrHead ts = true → noImpHead ts = true →
          parseIffR (tokList (.BINARY .OR l r) ++ ts)
            = parseIffLoopR (.BINARY .OR l r) ts := by
        intro ts hA hO hI
        exact parseIffR_step _ _ _ (hImp ts hA hO hI)
      have hNot : ∀ ts, parseNotR (atomTok (.BINARY .OR l r) ++ ts)
          = .ok (.BINARY .OR l r, ts) := by
        intro ts
        have h1 : parseIffR (tokList (.BINARY .OR l r) ++ (Token.RPAREN :: ts))
            = .ok (.BINARY .OR l r, Token.RPAREN :: ts) := by
          rw [hIff (Token.RPAREN :: ts) rfl rfl rfl]
          exact parseIffLoopR_exit _ _ rfl
        have h2 : parseAtomR
            (Token.LPAREN :: (tokList (.BINARY .OR l r) ++ (Token.RPAREN :: ts)))
            = .ok (.BINARY .OR l r, ts) := parseAtomR_lparen _ _ _ h1
        have hd : atomTok (.BINARY .OR l r) ++ ts
            = Token.LPAREN :: (tokList (.BINARY .OR l r) ++ (Token.RPAREN :: ts)) := by
          show (Token.LPAREN :: (tokList (.BINARY .OR l r) ++ [Token.RPAREN])) ++ ts = _
          simp [List.append_assoc]
        rw [hd, parseNotR_other
          (Token.LPAREN :: (tokList (.BINARY .OR l r) ++ (Token.RPAREN :: ts))) rfl]
        exact h2
      have hAnd : ∀ ts, parseAndR (andTok (.BINARY .OR l r) ++ ts)
          = parseAndLoopR (.BINARY .OR l r) ts := by
        intro ts
        exact parseAndR_step _ _ _ (hNot ts)
      exact ⟨hNot, hAnd, hOr, hImpOr, hImp, hIff⟩
    | IMPLIES =>
      have hlo : impTok l = orTok l := by
        cases l with
        | ATOM v => rfl
        | NOT g => rfl
        | BINARY lop a b =>
          cases lop with
          | AND => rfl
          | OR => rfl
          | IFF => rfl
          | IMPLIES => simp [noImpliesLeftOfImplies] at hni
      have hImp : ∀ ts, noAndHead ts = true → noOrHead ts = true → noImpHead ts = true →
          parseImpliesR (impTok (.BINARY .IMPLIES l r) ++ ts)
            = .ok (.BINARY .IMPLIES l r, ts) := by
        intro ts hA hO hI
        have hd : impTok (.BINARY .IMPLIES l r) ++ ts
            = orTok l ++ (Token.IMPLIES :: (orTok r ++ ts)) := by
          rw [show impTok (.BINARY .IMPLIES l r) = tokList (.BINARY .IMPLIES l r) from rfl,
            tokList_IMPLIES, hlo]
          simp [List.append_assoc]
        have h1 : parseOrR (orTok l ++ (Token.IMPLIES :: (orTok r ++ ts)))
            = .ok (l, Token.IMPLIES :: (orTok r ++ ts)) := by
          rw [lOr (Token.IMPLIES :: (orTok r ++ ts)) rfl]
          exact parseOrLoopR_exit _ _ rfl
        rw [hd]
        exact parseImpliesR_imp _ _ _ _ _ h1 (rImpOr ts hA hO hI)
      have hIff : ∀ ts, noAndHead ts = true → noOrHead ts = true → noImpHead ts = true →
          parseIffR (tokList (.BINARY .IMPLIES l r) ++ ts)
            = parseIffLoopR (.BINARY .IMPLIES l r) ts := by
        intro ts hA hO hI
        exact parseIffR_step _ _ _ (hImp ts hA hO hI)
      have hNot : ∀ ts, parseNotR (atomTok (.BINARY .IMPLIES l r) ++ ts)
          = .ok (.BINARY .IMPLIES l r, ts) := by
        intro ts
        have h1 : parseIffR (tokList (.BINARY .IMPLIES l r) ++ (Token.RPAREN :: ts))
            = .ok (.BINARY .IMPLIES l r, Token.RPAREN :: ts) := by
          rw [hIff (Token.RPAREN :: ts) rfl rfl rfl]
          exact parseIffLoopR_exit _ _ rfl
        have h2 : parseAtomR
            (Token.LPAREN :: (tokList (.BINARY .IMPLIES l r) ++ (Token.RPAREN :: ts)))
            = .ok (.BINARY .IMPLIES l r, ts) := parseAtomR_lparen _ _ _ h1
        have hd : atomTok (.BINARY .IMPLIES l r) ++ ts
            = Token.LPAREN :: (tokList (.BINARY .IMPLIES l r) ++ (Token.RPAREN :: ts)) := by
          show (Token.LPAREN :: (tokList (.BINARY .IMPLIES l r) ++ [Token.RPAREN])) ++ ts = _
          simp [List.append_assoc]
        rw [hd, parseNotR_other
          (Token.LPAREN :: (tokList (.BINARY .IMPLIES l r) ++ (Token.RPAREN :: ts))) rfl]
        exact h2
      have hAnd : ∀ ts, parseAndR (andTok (.BINARY .IMPLIES l r) ++ ts)
          = parseAndLoopR (.BINARY .IMPLIES l r) ts := by
        intro ts
        exact parseAndR_step _ _ _ (hNot ts)
      have hOr : ∀ ts, noAndHead ts = true →
          parseOrR (orTok (.BINARY .IMPLIES l r) ++ ts)
            = parseOrLoopR (.BINARY .IMPLIES l r) ts := by
        intro ts hA
        have h1 : parseAndR (andTok (.BINARY .IMPLIES l r) ++ ts)
            = .ok (.BINARY .IMPLIES l r, ts) := by
          rw [hAnd ts]
          exact parseAndLoopR_exit _ _ hA
        exact parseOrR_step _ _ _ h1
      have hImpOr : ∀ ts, noAndHead ts = true → noOrHead ts = true → noImpHead ts = true →
          parseImpliesR (orTok (.BINARY .IMPLIES l r) ++ ts)
            = .ok (.BINARY .IMPLIES l r, ts) := by
        intro ts hA hO hI
        have h1 : parseOrR (orTok (.BINARY .IMPLIES l r) ++ ts)
            = .ok (.BINARY .IMPLIES l r, ts) := by
          rw [hOr ts hA]
          exact parseOrLoopR_exit _ _ hO
        exact parseImpliesR_noimp _ _ _ h1 hI
      exact ⟨hNot, hAnd, hOr, hImpOr, hImp, hIff⟩
    | IFF =>
      have hIff : ∀ ts, noAndHead ts = true → noOrHead ts = true → noImpHead ts = true →
          parseIffR (tokList (.BINARY .IFF l r) ++ ts)
            = parseIffLoopR (.BINARY .IFF l r) ts := by
        intro ts hA hO hI
        have hd : tokList (.BINARY .IFF l r) ++ ts
            = tokList l ++ (Token.IFF :: (impTok r ++ ts)) := by
          rw [tokList_IFF]
          simp [List.append_assoc]
        rw [hd, lIff (Token.IFF :: (impTok r ++ ts)) rfl rfl rfl,
          parseIffLoopR_iff _ _ _ _ (rImp ts hA hO hI)]
      have hNot : ∀ ts, parseNotR (atomTok (.BINARY .IFF l r) ++ ts)
          = .ok (.BINARY .IFF l r, ts) := by
        intro ts
        have h1 : parseIffR (tokList (.BINARY .IFF l r) ++ (Token.RPAREN :: ts))
            = .ok (.BINARY .IFF l r, Token.RPAREN :: ts) := by
          rw [hIff (Token.RPAREN :: ts) rfl rfl rfl]
          exact parseIffLoopR_exit _ _ rfl
        have h2 : parseAtomR
            (Token.LPAREN :: (tokList (.BINARY .IFF l r) ++ (Token.RPAREN :: ts)))
            = .ok (.BINARY .IFF l r, ts) := parseAtomR_lparen _ _ _ h1
        have hd : atomTok (.BINARY .IFF l r) ++ ts
            = Token.LPAREN :: (tokList (.BINARY .IFF l r) ++ (Token.RPAREN :: ts)) := by
          show (Token.LPAREN :: (tokList (.BINARY .IFF l r) ++ [Token.RPAREN])) ++ ts = _
          simp [List.append_assoc]
        rw [hd, parseNotR_other
          (Token.LPAREN :: (tokList (.BINARY .IFF l r) ++ (Token.RPAREN :: ts))) rfl]
        exact h2
      have hAnd : ∀ ts, parseAndR (andTok (.BINARY .IFF l r) ++ ts)
          = parseAndLoopR (.BINARY .IFF l r) ts := by
        intro ts
        exact parseAndR_step _ _ _ (hNot ts)
      have hOr : ∀ ts, noAndHead ts = true →
          parseOrR (orTok (.BINARY .IFF l r) ++ ts)
            = parseOrLoopR (.BINARY .IFF l r) ts := by
        intro ts hA
        have h1 : parseAndR (andTok (.BINARY .IFF l r) ++ ts)
            = .ok (.BINARY .IFF l r, ts) := by
          rw [hAnd ts]
          exact parseAndLoopR_exit _ _ hA
        exact parseOrR_step _ _ _ h1
      have hImpOr : ∀ ts, noAndHead ts = true → noOrHead ts = true → noImpHead ts = true →
          parseImpliesR (orTok (.BINARY .IFF l r) ++ ts) = .ok (.BINARY .IFF l r, ts) := by
        intro ts hA hO hI
        have h1 : parseOrR (orTok (.BINARY .IFF l r) ++ ts)
            = .ok (.BINARY .IFF l r, ts) := by
          rw [hOr ts hA]
          exact parseOrLoopR_exit _ _ hO
        exact parseImpliesR_noimp _ _ _ h1 hI
      have hImp : ∀ ts, noAndHead ts = true → noOrHead ts = true → noImpHead ts = true →
          parseImpliesR (impTok (.BINARY .IFF l r) ++ ts)
            = .ok (.BINARY .IFF l r, ts) := hImpOr
      exact ⟨hNot, hAnd, hOr, hImpOr, hImp, hIff⟩

/-- Parsing the printed form of a well-named formula with no ambiguous
`IMPLIES` nesting returns the formula itself. -/
theorem parse_print_roundtrip (f : Formula) (hav : atomsValid f = true)
    (hni : noImpliesLeftOfImplies f = true) :
    parse (formulaToString f) = .ok f := by
  have htok : tokenize (formulaToString f).data = .ok (tokList f) := by
    have h := tokenize_print f [] [] hav rfl (by rw [tokenize.eq_def])
    simpa using h
  have hiff : parseIffR (tokList f ++ []) = parseIffLoopR f [] :=
    (roundtrip_bundle f hav hni).2.2.2.2.2 [] rfl rfl rfl
  rw [parseIffLoopR_exit f [] rfl] at hiff
  have hiff2 : parseIffR (tokList f) = .ok (f, []) := by
    rw [List.append_nil] at hiff
    exact hiff
  exact parse_of_parseIffR _ _ _ htok hiff2

/-- Every formula is equivalent to itself under `areEquivalent`. -/
theorem areEquivalent_self (f : Formula) : areEquivalent f f = true :=
  areEquivalent_of_pointwise f f (fun _ => rfl)

/-- C2 counterexample: the formula `(P → Q) → R` is obtained from a successful
parse, but `formulaToString` prints it as `P → Q → R` (the strict `<` in the
left-parenthesisation test omits the parentheses), which re-parses
right-associatively as `P → (Q → R)` — and the two formulas are not
equivalent, refuting both the "yields `f` back" and the "yields an equivalent
formula" readings of the round-trip claim. -/
theorem claim_C2_counterexample :
    parse "(P -> Q) -> R"
      = .ok (.BINARY .IMPLIES (.BINARY .IMPLIES (.ATOM "P") (.ATOM "Q")) (.ATOM "R"))
    ∧ parse (formulaToString
        (.BINARY .IMPLIES (.BINARY .IMPLIES (.ATOM "P") (.ATOM "Q")) (.ATOM "R")))
      = .ok (.BINARY .IMPLIES (.ATOM "P") (.BINARY .IMPLIES (.ATOM "Q") (.ATOM "R")))
    ∧ areEquivalent (.BINARY .IMPLIES (.BINARY .IMPLIES (.ATOM "P") (.ATOM "Q")) (.ATOM "R"))
      (.BINARY .IMPLIES (.ATOM "P") (.BINARY .IMPLIES (.ATOM "Q") (.ATOM "R"))) = false := by
  have i1 : parseOrR [Token.ATOM "P", .IMPLIES, .ATOM "Q", .RPAREN, .IMPLIES, .ATOM "R"]
      = .ok (.ATOM "P", [.IMPLIES, .ATOM "Q", .RPAREN, .IMPLIES, .ATOM "R"]) :=
    parseOrR_atom "P" _ rfl rfl
  have i2 : parseImpliesR [Token.ATOM "Q", .RPAREN, .IMPLIES, .ATOM "R"]
      = .ok (.ATOM "Q", [.RPAREN, .IMPLIES, .ATOM "R"]) :=
    parseImpliesR_atom "Q" _ rfl rfl rfl
  have i3 : parseImpliesR [Token.ATOM "P", .IMPLIES, .ATOM "Q", .RPAREN, .IMPLIES, .ATOM "R"]
      = .ok (.BINARY .IMPLIES (.ATOM "P") (.ATOM "Q"), [.RPAREN, .IMPLIES, .ATOM "R"]) :=
    parseImpliesR_imp _ _ _ _ _ i1 i2
  have i4 : parseIffR [Token.ATOM "P", .IMPLIES, .ATOM "Q", .RPAREN, .IMPLIES, .ATOM "R"]
      = .ok (.BINARY .IMPLIES (.ATOM "P") (.ATOM "Q"), [.RPAREN, .IMPLIES, .ATOM "R"]) := by
    rw [parseIffR_step _ _ _ i3]
    exact parseIffLoopR_exit _ _ rfl
  have i5 : parseAtomR [Token.LPAREN, .ATOM "P", .IMPLIES, .ATOM "Q", .RPAREN, .IMPLIES, .ATOM "R"]
      = .ok (.BINARY .IMPLIES (.ATOM "P") (.ATOM "Q"), [.IMPLIES, .ATOM "R"]) :=
    parseAtomR_lparen _ _ _ i4
  have i6 : parseNotR [Token.LPAREN, .ATOM "P", .IMPLIES, .ATOM "Q", .RPAREN, .IMPLIES, .ATOM "R"]
      = .ok (.BINARY .IMPLIES (.ATOM "P") (.ATOM "Q"), [.IMPLIES, .ATOM "R"]) := by
    rw [parseNotR_other [Token.LPAREN, .ATOM "P", .IMPLIES, .ATOM "Q", .RPAREN, .IMPLIES,
      .ATOM "R"] rfl]
    exact i5
  have i7 : parseAndR [Token.LPAREN, .ATOM "P", .IMPLIES, .ATOM "Q", .RPAREN, .IMPLIES, .ATOM "R"]
      = .ok (.BINARY .IMPLIES (.ATOM "P") (.ATOM "Q"), [.IMPLIES, .ATOM "R"]) := by
    rw [parseAndR_step _ _ _ i6]
    exact parseAndLoopR_exit _ _ rfl
  have i8 : parseOrR [Token.LPAREN, .ATOM "P", .IMPLIES, .ATOM "Q", .RPAREN, .IMPLIES, .ATOM "R"]
      = .ok (.BINARY .IMPLIES (.ATOM "P") (.ATOM "Q"), [.IMPLIES, .ATOM "R"]) := by
    rw [parseOrR_step _ _ _ i7]
    exact parseOrLoopR_exit _ _ rfl
  have i9 : parseImpliesR [Token.ATOM "R"] = .ok (.ATOM "R", []) :=
    parseImpliesR_atom "R" [] rfl rfl rfl
  have i10 : parseImpliesR
      [Token.LPAREN, .ATOM "P", .IMPLIES, .ATOM "Q", .RPAREN, .IMPLIES, .ATOM "R"]
      = .ok (.BINARY .IMPLIES (.BINARY .IMPLIES (.ATOM "P") (.ATOM "Q")) (.ATOM "R"), []) :=
    parseImpliesR_imp _ _ _ _ _ i8 i9
  have i11 : parseIffR
      [Token.LPAREN, .ATOM "P", .IMPLIES, .ATOM "Q", .RPAREN, .IMPLIES, .ATOM "R"]
      = .ok (.BINARY .IMPLIES (.BINARY .IMPLIES (.ATOM "P") (.ATOM "Q")) (.ATOM "R"), []) := by
    rw [parseIffR_step _ _ _ i10]
    exact parseIffLoopR_exit _ _ rfl
  have htokA : tokenize (("(P -> Q) -> R" : String)).data
      = .ok [Token.LPAREN, .ATOM "P", .IMPLIES, .ATOM "Q", .RPAREN, .IMPLIES, .ATOM "R"] := by
    rw [show (("(P -> Q) -> R" : String)).data
      = ['(', 'P', ' ', '-', '>', ' ', 'Q', ')', ' ', '-', '>', ' ', 'R'] from rfl]
    simp +decide [tokenize.eq_def, Except.map]
  have hparseA : parse "(P -> Q) -> R"
      = .ok (.BINARY .IMPLIES (.BINARY .IMPLIES (.ATOM "P") (.ATOM "Q")) (.ATOM "R")) :=
    parse_of_parseIffR _ _ _ htokA i11
  have j2 : parseImpliesR [Token.ATOM "Q", .IMPLIES, .ATOM "R"]
      = .ok (.BINARY .IMPLIES (.ATOM "Q") (.ATOM "R"), []) :=
    parseImpliesR_imp _ _ _ _ _ (parseOrR_atom "Q" [.IMPLIES, .ATOM "R"] rfl rfl) i9
  have j3 : parseImpliesR [Token.ATOM "P", .IMPLIES, .ATOM "Q", .IMPLIES, .ATOM "R"]
      = .ok (.BINARY .IMPLIES (.ATOM "P") (.BINARY .IMPLIES (.ATOM "Q") (.ATOM "R")), []) :=
    parseImpliesR_imp _ _ _ _ _ (parseOrR_atom "P" _ rfl rfl) j2
  have j4 : parseIffR [Token.ATOM "P", .IMPLIES, .ATOM "Q", .IMPLIES, .ATOM "R"]
      = .ok (.BINARY .IMPLIES (.ATOM "P") (.BINARY .IMPLIES (.ATOM "Q") (.ATOM "R")), []) := by
    rw [parseIffR_step _ _ _ j3]
    exact parseIffLoopR_exit _ _ rfl
  have htokB : tokenize (("P → Q → R" : String)).data
      = .ok [Token.ATOM "P", .IMPLIES, .ATOM "Q", .IMPLIES, .ATOM "R"] := by
    rw [show (("P → Q → R" : String)).data
      = ['P', ' ', '→', ' ', 'Q', ' ', '→', ' ', 'R'] from rfl]
    simp +decide [tokenize.eq_def, Except.map]
  have hparseB : parse "P → Q → R"
      = .ok (.BINARY .IMPLIES (.ATOM "P") (.BINARY .IMPLIES (.ATOM "Q") (.ATOM "R"))) :=
    parse_of_parseIffR _ _ _ htokB j4
  refine ⟨hparseA, ?_, by decide⟩
  rw [show formulaToString
      (.BINARY .IMPLIES (.BINARY .IMPLIES (.ATOM "P") (.ATOM "Q")) (.ATOM "R"))
    = "P → Q → R" from by decide]
  exact hparseB

/-- C2 (amended): for every formula whose atom names the tokenizer can
produce (true of every `parse` output) and in which no `IMPLIES` node is the
left child of an `IMPLIES` node, `parse (formulaToString f)` succeeds and
returns `f` itself — in particular an equivalent formula.  The excluded shape
is exactly the one the printer renders without parentheses, which the
right-associative `parseImplies` then re-parses differently (see the
counterexample). -/
theorem claim_C2_roundtrip_exact_without_bare_implies_nesting (f : Formula)
    (hav : atomsValid f = true) (hni : noImpliesLeftOfImplies f = true) :
    parse (formulaToString f) = .ok f ∧ areEquivalent f f = true :=
  ⟨parse_print_roundtrip f hav hni, areEquivalent_self f⟩

/-- Witness for the amended C2 theorem at the right-nested formula
`P → (Q → R)`. -/
theorem claim_C2_witness :
    atomsValid (.BINARY .IMPLIES (.ATOM "P")
      (.BINARY .IMPLIES (.ATOM "Q") (.ATOM "R"))) = true
    ∧ noImpliesLeftOfImplies (.BINARY .IMPLIES (.ATOM "P")
      (.BINARY .IMPLIES (.ATOM "Q") (.ATOM "R"))) = true
    ∧ (parse (formulaToString (.BINARY .IMPLIES (.ATOM "P")
        (.BINARY .IMPLIES (.ATOM "Q") (.ATOM "R"))))
      = .ok (.BINARY .IMPLIES (.ATOM "P") (.BINARY .IMPLIES (.ATOM "Q") (.ATOM "R")))
      ∧ areEquivalent
        (.BINARY .IMPLIES (.ATOM "P") (.BINARY .IMPLIES (.ATOM "Q") (.ATOM "R")))
        (.BINARY .IMPLIES (.ATOM "P") (.BINARY .IMPLIES (.ATOM "Q") (.ATOM "R"))) = true) :=
  ⟨by decide, by decide,
    claim_C2_roundtrip_exact_without_bare_implies_nesting _ (by decide) (by decide)⟩

/-- C4: the parser implements precedence IFF < IMPLIES < OR < AND < NOT with
the stated associativities, for arbitrary tokenizer-valid atom names: `->` is
right-associative; `<->`, `|`, `&` chains associate left; `&` binds tighter
than `|` on both sides; `~` binds tighter than every binary connective; and
`<->` is weaker than `->`, which is weaker than `|`. -/
theorem claim_C4_precedence_and_associativity (a b c : String)
    (ha : validAtomName a = true) (hb : validAtomName b = true)
    (hc : validAtomName c = true) :
    parse (a ++ " -> " ++ b ++ " -> " ++ c)
      = .ok (.BINARY .IMPLIES (.ATOM a) (.BINARY .IMPLIES (.ATOM b) (.ATOM c)))
    ∧ parse (a ++ " <-> " ++ b ++ " <-> " ++ c)
      = .ok (.BINARY .IFF (.BINARY .IFF (.ATOM a) (.ATOM b)) (.ATOM c))
    ∧ parse (a ++ " | " ++ b ++ " | " ++ c)
      = .ok (.BINARY .OR (.BINARY .OR (.ATOM a) (.ATOM b)) (.ATOM c))
    ∧ parse (a ++ " & " ++ b ++ " & " ++ c)
      = .ok (.BINARY .AND (.BINARY .AND (.ATOM a) (.ATOM b)) (.ATOM c))
    ∧ parse (a ++ " | " ++ b ++ " & " ++ c)
      = .ok (.BINARY .OR (.ATOM a) (.BINARY .AND (.ATOM b) (.ATOM c)))
    ∧ parse (a ++ " & " ++ b ++ " | " ++ c)
      = .ok (.BINARY .OR (.BINARY .AND (.ATOM a) (.ATOM b)) (.ATOM c))
    ∧ parse ("~" ++ a ++ " & " ++ b)
      = .ok (.BINARY .AND (.NOT (.ATOM a)) (.ATOM b))
    ∧ parse ("~" ++ a ++ " | " ++ b)
      = .ok (.BINARY .OR (.NOT (.ATOM a)) (.ATOM b))
    ∧ parse ("~" ++ a ++ " -> " ++ b)
      = .ok (.BINARY .IMPLIES (.NOT (.ATOM a)) (.ATOM b))
    ∧ parse ("~" ++ a ++ " <-> " ++ b)
      = .ok (.BINARY .IFF (.NOT (.ATOM a)) (.ATOM b))
    ∧ parse (a ++ " <-> " ++ b ++ " -> " ++ c)
      = .ok (.BINARY .IFF (.ATOM a) (.BINARY .IMPLIES (.ATOM b) (.ATOM c)))
    ∧ parse (a ++ " -> " ++ b ++ " | " ++ c)
      = .ok (.BINARY .IMPLIES (.ATOM a) (.BINARY .OR (.ATOM b) (.ATOM c))) := by
  have hb0 : tokenize b.data = .ok [Token.ATOM b] := by
    have h := tokenize_atom_cons b [] [] hb rfl (by rw [tokenize.eq_def])
    rwa [List.append_nil] at h
  have hc0 : tokenize c.data = .ok [Token.ATOM c] := by
    have h := tokenize_atom_cons c [] [] hc rfl (by rw [tokenize.eq_def])
    rwa [List.append_nil] at h
  have p1 : parseImpliesR [Token.ATOM c] = .ok (.ATOM c, []) :=
    parseImpliesR_atom c [] rfl rfl rfl
  have p2 : parseImpliesR [Token.ATOM b, .IMPLIES, .ATOM c]
      = .ok (.BINARY .IMPLIES (.ATOM b) (.ATOM c), []) :=
    parseImpliesR_imp _ _ _ _ _ (parseOrR_atom b _ rfl rfl) p1
  have r2 : parseAndR [Token.ATOM b, .OR, .ATOM c] = .ok (.ATOM b, [.OR, .ATOM c]) :=
    parseAndR_atom b _ rfl
  have r3 : parseAndR [Token.ATOM c] = .ok (.ATOM c, []) := parseAndR_atom c [] rfl
  have h1 : parse (a ++ " -> " ++ b ++ " -> " ++ c)
      = .ok (.BINARY .IMPLIES (.ATOM a) (.BINARY .IMPLIES (.ATOM b) (.ATOM c))) := by
    have htok : tokenize ((a ++ " -> " ++ b ++ " -> " ++ c) : String).data
        = .ok [Token.ATOM a, .IMPLIES, .ATOM b, .IMPLIES, .ATOM c] := by
      have hdata : ((a ++ " -> " ++ b ++ " -> " ++ c) : String).data
          = a.data ++ (' ' :: '-' :: '>' :: ' '
            :: (b.data ++ (' ' :: '-' :: '>' :: ' ' :: c.data))) := by
        simp [String.data_append, show ((" -> " : String)).data = [' ', '-', '>', ' '] from rfl]
      rw [hdata]
      exact tokenize_atom_cons a _ _ ha rfl
        (tok_mid_imp _ _ (tokenize_atom_cons b _ _ hb rfl (tok_mid_imp _ _ hc0)))
    have p3 : parseImpliesR [Token.ATOM a, .IMPLIES, .ATOM b, .IMPLIES, .ATOM c]
        = .ok (.BINARY .IMPLIES (.ATOM a) (.BINARY .IMPLIES (.ATOM b) (.ATOM c)), []) :=
      parseImpliesR_imp _ _ _ _ _ (parseOrR_atom a _ rfl rfl) p2
    have p4 : parseIffR [Token.ATOM a, .IMPLIES, .ATOM b, .IMPLIES, .ATOM c]
        = .ok (.BINARY .IMPLIES (.ATOM a) (.BINARY .IMPLIES (.ATOM b) (.ATOM c)), []) := by
      rw [parseIffR_step _ _ _ p3]
      exact parseIffLoopR_exit _ _ rfl
    exact parse_of_parseIffR _ _ _ htok p4
  have h2 : parse (a ++ " <-> " ++ b ++ " <-> " ++ c)
      = .ok (.BINARY .IFF (.BINARY .IFF (.ATOM a) (.ATOM b)) (.ATOM c)) := by
    have htok : tokenize ((a ++ " <-> " ++ b ++ " <-> " ++ c) : String).data
        = .ok [Token.ATOM a, .IFF, .ATOM b, .IFF, .ATOM c] := by
      have hdata : ((a ++ " <-> " ++ b ++ " <-> " ++ c) : String).data
          = a.data ++ (' ' :: '<' :: '-' :: '>' :: ' '
            :: (b.data ++ (' ' :: '<' :: '-' :: '>' :: ' ' :: c.data))) := by
        simp [String.data_append,
          show ((" <-> " : String)).data = [' ', '<', '-', '>', ' '] from rfl]
      rw [hdata]
      exact tokenize_atom_cons a _ _ ha rfl
        (tok_mid_iff _ _ (tokenize_atom_cons b _ _ hb rfl (tok_mid_iff _ _ hc0)))
    have q1 : parseImpliesR [Token.ATOM a, .IFF, .ATOM b, .IFF, .ATOM c]
        = .ok (.ATOM a, [.IFF, .ATOM b, .IFF, .ATOM c]) :=
      parseImpliesR_atom a _ rfl rfl rfl
    have q2 : parseImpliesR [Token.ATOM b, .IFF, .ATOM c]
        = .ok (.ATOM b, [.IFF, .ATOM c]) := parseImpliesR_atom b _ rfl rfl rfl
    have q4 : parseIffR [Token.ATOM a, .IFF, .ATOM b, .IFF, .ATOM c]
        = .ok (.BINARY .IFF (.BINARY .IFF (.ATOM a) (.ATOM b)) (.ATOM c), []) := by
      rw [parseIffR_step _ _ _ q1, parseIffLoopR_iff _ _ _ _ q2,
        parseIffLoopR_iff _ _ _ _ p1]
      exact parseIffLoopR_exit _ _ rfl
    exact parse_of_parseIffR _ _ _ htok q4
  have h3 : parse (a ++ " | " ++ b ++ " | " ++ c)
      = .ok (.BINARY .OR (.BINARY .OR (.ATOM a) (.ATOM b)) (.ATOM c)) := by
    have htok : tokenize ((a ++ " | " ++ b ++ " | " ++ c) : String).data
        = .ok [Token.ATOM a, .OR, .ATOM b, .OR, .ATOM c] := by
      have hdata : ((a ++ " | " ++ b ++ " | " ++ c) : String).data
          = a.data ++ (' ' :: '|' :: ' ' :: (b.data ++ (' ' :: '|' :: ' ' :: c.data))) := by
        simp [String.data_append, show ((" | " : String)).data = [' ', '|', ' '] from rfl]
      rw [hdata]
      exact tokenize_atom_cons a _ _ ha rfl
        (tok_mid_pipe _ _ (tokenize_atom_cons b _ _ hb rfl (tok_mid_pipe _ _ hc0)))
    have r1 : parseAndR [Token.ATOM a, .OR, .ATOM b, .OR, .ATOM c]
        = .ok (.ATOM a, [.OR, .ATOM b, .OR, .ATOM c]) := parseAndR_atom a _ rfl
    have r2b : parseAndR [Token.ATOM b, .OR, .ATOM c] = .ok (.ATOM b, [.OR, .ATOM c]) := r2
    have r4 : parseOrR [Token.ATOM a, .OR, .ATOM b, .OR, .ATOM c]
        = .ok (.BINARY .OR (.BINARY .OR (.ATOM a) (.ATOM b)) (.ATOM c), []) := by
      rw [parseOrR_step _ _ _ r1, parseOrLoopR_or _ _ _ _ r2b, parseOrLoopR_or _ _ _ _ r3]
      exact parseOrLoopR_exit _ _ rfl
    have r5 : parseImpliesR [Token.ATOM a, .OR, .ATOM b, .OR, .ATOM c]
        = .ok (.BINARY .OR (.BINARY .OR (.ATOM a) (.ATOM b)) (.ATOM c), []) :=
      parseImpliesR_noimp _ _ _ r4 rfl
    have r6 : parseIffR [Token.ATOM a, .OR, .ATOM b, .OR, .ATOM c]
        = .ok (.BINARY .OR (.BINARY .OR (.ATOM a) (.ATOM b)) (.ATOM c), []) := by
      rw [parseIffR_step _ _ _ r5]
      exact parseIffLoopR_exit _ _ rfl
    exact parse_of_parseIffR _ _ _ htok r6
  have h4 : parse (a ++ " & " ++ b ++ " & " ++ c)
      = .ok (.BINARY .AND (.BINARY .AND (.ATOM a) (.ATOM b)) (.ATOM c)) := by
    have htok : tokenize ((a ++ " & " ++ b ++ " & " ++ c) : String).data
        = .ok [Token.ATOM a, .AND, .ATOM b, .AND, .ATOM c] := by
      have hdata : ((a ++ " & " ++ b ++ " & " ++ c) : String).data
          = a.data ++ (' ' :: '&' :: ' ' :: (b.data ++ (' ' :: '&' :: ' ' :: c.data))) := by
        simp [String.data_append, show ((" & " : String)).data = [' ', '&', ' '] from rfl]
      rw [hdata]
      exact tokenize_atom_cons a _ _ ha rfl
        (tok_mid_amp _ _ (tokenize_atom_cons b _ _ hb rfl (tok_mid_amp _ _ hc0)))
    have s1 : parseAndR [Token.ATOM a, .AND, .ATOM b, .AND, .ATOM c]
        = .ok (.BINARY .AND (.BINARY .AND (.ATOM a) (.ATOM b)) (.ATOM c), []) := by
      rw [parseAndR_step _ _ _ (parseNotR_atomTok a _),
        parseAndLoopR_and _ _ _ _ (parseNotR_atomTok b _),
        parseAndLoopR_and _ _ _ _ (parseNotR_atomTok c _)]
      exact parseAndLoopR_exit _ _ rfl
    have s2 : parseOrR [Token.ATOM a, .AND, .ATOM b, .AND, .ATOM c]
        = .ok (.BINARY .AND (.BINARY .AND (.ATOM a) (.ATOM b)) (.ATOM c), []) := by
      rw [parseOrR_step _ _ _ s1]
      exact parseOrLoopR_exit _ _ rfl
    have s3 : parseImpliesR [Token.ATOM a, .AND, .ATOM b, .AND, .ATOM c]
        = .ok (.BINARY .AND (.BINARY .AND (.ATOM a) (.ATOM b)) (.ATOM c), []) :=
      parseImpliesR_noimp _ _ _ s2 rfl
    have s4 : parseIffR [Token.ATOM a, .AND, .ATOM b, .AND, .ATOM c]
        = .ok (.BINARY .AND (.BINARY .AND (.ATOM a) (.ATOM b)) (.ATOM c), []) := by
      rw [parseIffR_step _ _ _ s3]
      exact parseIffLoopR_exit _ _ rfl
    exact parse_of_parseIffR _ _ _ htok s4
  have h5 : parse (a ++ " | " ++ b ++ " & " ++ c)
      = .ok (.BINARY .OR (.ATOM a) (.BINARY .AND (.ATOM b) (.ATOM c))) := by
    have htok : tokenize ((a ++ " | " ++ b ++ " & " ++ c) : String).data
        = .ok [Token.ATOM a, .OR, .ATOM b, .AND, .ATOM c] := by
      have hdata : ((a ++ " | " ++ b ++ " & " ++ c) : String).data
          = a.data ++ (' ' :: '|' :: ' ' :: (b.data ++ (' ' :: '&' :: ' ' :: c.data))) := by
        simp [String.data_append, show ((" | " : String)).data = [' ', '|', ' '] from rfl,
          show ((" & " : String)).data = [' ', '&', ' '] from rfl]
      rw [hdata]
      exact tokenize_atom_cons a _ _ ha rfl
        (tok_mid_pipe _ _ (tokenize_atom_cons b _ _ hb rfl (tok_mid_amp _ _ hc0)))
    have t1 : parseAndR [Token.ATOM b, .AND, .ATOM c]
        = .ok (.BINARY .AND (.ATOM b) (.ATOM c), []) := by
      rw [parseAndR_step _ _ _ (parseNotR_atomTok b _),
        parseAndLoopR_and _ _ _ _ (parseNotR_atomTok c _)]
      exact parseAndLoopR_exit _ _ rfl
    have t2 : parseAndR [Token.ATOM a, .OR, .ATOM b, .AND, .ATOM c]
        = .ok (.ATOM a, [.OR, .ATOM b, .AND, .ATOM c]) := parseAndR_atom a _ rfl
    have t3 : parseOrR [Token.ATOM a, .OR, .ATOM b, .AND, .ATOM c]
        = .ok (.BINARY .OR (.ATOM a) (.BINARY .AND (.ATOM b) (.ATOM c)), []) := by
      rw [parseOrR_step _ _ _ t2, parseOrLoopR_or _ _ _ _ t1]
      exact parseOrLoopR_exit _ _ rfl
    have t4 : parseImpliesR [Token.ATOM a, .OR, .ATOM b, .AND, .ATOM c]
        = .ok (.BINARY .OR (.ATOM a) (.BINARY .AND (.ATOM b) (.ATOM c)), []) :=
      parseImpliesR_noimp _ _ _ t3 rfl
    have t5 : parseIffR [Token.ATOM a, .OR, .ATOM b, .AND, .ATOM c]
        = .ok (.BINARY .OR (.ATOM a) (.BINARY .AND (.ATOM b) (.ATOM c)), []) := by
      rw [parseIffR_step _ _ _ t4]
      exact parseIffLoopR_exit _ _ rfl
    exact parse_of_parseIffR _ _ _ htok t5
  have h6 : parse (a ++ " & " ++ b ++ " | " ++ c)
      = .ok (.BINARY .OR (.BINARY .AND (.ATOM a) (.ATOM b)) (.ATOM c)) := by
    have htok : tokenize ((a ++ " & " ++ b ++ " | " ++ c) : String).data
        = .ok [Token.ATOM a, .AND, .ATOM b, .OR, .ATOM c] := by
      have hdata : ((a ++ " & " ++ b ++ " | " ++ c) : String).data
          = a.data ++ (' ' :: '&' :: ' ' :: (b.data ++ (' ' :: '|' :: ' ' :: c.data))) := by
        simp [String.data_append, show ((" | " : String)).data = [' ', '|', ' '] from rfl,
          show ((" & " : String)).data = [' ', '&', ' '] from rfl]
      rw [hdata]
      exact tokenize_atom_cons a _ _ ha rfl
        (tok_mid_amp _ _ (tokenize_atom_cons b _ _ hb rfl (tok_mid_pipe _ _ hc0)))
    have u1 : parseAndR [Token.ATOM a, .AND, .ATOM b, .OR, .ATOM c]
        = .ok (.BINARY .AND (.ATOM a) (.ATOM b), [.OR, .ATOM c]) := by
      rw [parseAndR_step _ _ _ (parseNotR_atomTok a _),
        parseAndLoopR_and _ _ _ _ (parseNotR_atomTok b _)]
      exact parseAndLoopR_exit _ _ rfl
    have u2 : parseOrR [Token.ATOM a, .AND, .ATOM b, .OR, .ATOM c]
        = .ok (.BINARY .OR (.BINARY .AND (.ATOM a) (.ATOM b)) (.ATOM c), []) := by
      rw [parseOrR_step _ _ _ u1, parseOrLoopR_or _ _ _ _ r3]
      exact parseOrLoopR_exit _ _ rfl
    have u3 : parseImpliesR [Token.ATOM a, .AND, .ATOM b, .OR, .ATOM c]
        = .ok (.BINARY .OR (.BINARY .AND (.ATOM a) (.ATOM b)) (.ATOM c), []) :=
      parseImpliesR_noimp _ _ _ u2 rfl
    have u4 : parseIffR [Token.ATOM a, .AND, .ATOM b, .OR, .ATOM c]
        = .ok (.BINARY .OR (.BINARY .AND (.ATOM a) (.ATOM b)) (.ATOM c), []) := by
      rw [parseIffR_step _ _ _ u3]
      exact parseIffLoopR_exit _ _ rfl
    exact parse_of_parseIffR _ _ _ htok u4
  have h7 : parse ("~" ++ a ++ " & " ++ b)
      = .ok (.BINARY .AND (.NOT (.ATOM a)) (.ATOM b)) := by
    have htok : tokenize (("~" ++ a ++ " & " ++ b) : String).data
        = .ok [Token.NOT, .ATOM a, .AND, .ATOM b] := by
      have hdata : (("~" ++ a ++ " & " ++ b) : String).data
          = '~' :: (a.data ++ (' ' :: '&' :: ' ' :: b.data)) := by
        simp [String.data_append, show (("~" : String)).data = ['~'] from rfl,
          show ((" & " : String)).data = [' ', '&', ' '] from rfl]
      have hrest : tokenize (a.data ++ (' ' :: '&' :: ' ' :: b.data))
          = .ok [Token.ATOM a, .AND, .ATOM b] :=
        tokenize_atom_cons a _ _ ha rfl (tok_mid_amp _ _ hb0)
      rw [hdata, tokenize_tilde, hrest]
      rfl
    have v0 : parseNotR [Token.NOT, .ATOM a, .AND, .ATOM b]
        = .ok (.NOT (.ATOM a), [.AND, .ATOM b]) :=
      parseNotR_not _ _ _ (parseNotR_atomTok a _)
    have v1 : parseAndR [Token.NOT, .ATOM a, .AND, .ATOM b]
        = .ok (.BINARY .AND (.NOT (.ATOM a)) (.ATOM b), []) := by
      rw [parseAndR_step _ _ _ v0, parseAndLoopR_and _ _ _ _ (parseNotR_atomTok b _)]
      exact parseAndLoopR_exit _ _ rfl
    have v2 : parseOrR [Token.NOT, .ATOM a, .AND, .ATOM b]
        = .ok (.BINARY .AND (.NOT (.ATOM a)) (.ATOM b), []) := by
      rw [parseOrR_step _ _ _ v1]
      exact parseOrLoopR_exit _ _ rfl
    have v3 : parseImpliesR [Token.NOT, .ATOM a, .AND, .ATOM b]
        = .ok (.BINARY .AND (.NOT (.ATOM a)) (.ATOM b), []) :=
      parseImpliesR_noimp _ _ _ v2 rfl
    have v4 : parseIffR [Token.NOT, .ATOM a, .AND, .ATOM b]
        = .ok (.BINARY .AND (.NOT (.ATOM a)) (.ATOM b), []) := by
      rw [parseIffR_step _ _ _ v3]
      exact parseIffLoopR_exit _ _ rfl
    exact parse_of_parseIffR _ _ _ htok v4
  have h8 : parse ("~" ++ a ++ " | " ++ b)
      = .ok (.BINARY .OR (.NOT (.ATOM a)) (.ATOM b)) := by
    have htok : tokenize (("~" ++ a ++ " | " ++ b) : String).data
        = .ok [Token.NOT, .ATOM a, .OR, .ATOM b] := by
      have hdata : (("~" ++ a ++ " | " ++ b) : String).data
          = '~' :: (a.data ++ (' ' :: '|' :: ' ' :: b.data)) := by
        simp [String.data_append, show (("~" : String)).data = ['~'] from rfl,
          show ((" | " : String)).data = [' ', '|', ' '] from rfl]
      have hrest : tokenize (a.data ++ (' ' :: '|' :: ' ' :: b.data))
          = .ok [Token.ATOM a, .OR, .ATOM b] :=
        tokenize_atom_cons a _ _ ha rfl (tok_mid_pipe _ _ hb0)
      rw [hdata, tokenize_tilde, hrest]
      rfl
    have w0 : parseNotR [Token.NOT, .ATOM a, .OR, .ATOM b]
        = .ok (.NOT (.ATOM a), [.OR, .ATOM b]) :=
      parseNotR_not _ _ _ (parseNotR_atomTok a _)
    have w1 : parseAndR [Token.NOT, .ATOM a, .OR, .ATOM b]
        = .ok (.NOT (.ATOM a), [.OR, .ATOM b]) := by
      rw [parseAndR_step _ _ _ w0]
      exact parseAndLoopR_exit _ _ rfl
    have w2 : parseOrR [Token.NOT, .ATOM a, .OR, .ATOM b]
        = .ok (.BINARY .OR (.NOT (.ATOM a)) (.ATOM b), []) := by
      rw [parseOrR_step _ _ _ w1, parseOrLoopR_or _ _ _ _ (parseAndR_atom b [] rfl)]
      exact parseOrLoopR_exit _ _ rfl
    have w3 : parseImpliesR [Token.NOT, .ATOM a, .OR, .ATOM b]
        = .ok (.BINARY .OR (.NOT (.ATOM a)) (.ATOM b), []) :=
      parseImpliesR_noimp _ _ _ w2 rfl
    have w4 : parseIffR [Token.NOT, .ATOM a, .OR, .ATOM b]
        = .ok (.BINARY .OR (.NOT (.ATOM a)) (.ATOM b), []) := by
      rw [parseIffR_step _ _ _ w3]
      exact parseIffLoopR_exit _ _ rfl
    exact parse_of_parseIffR _ _ _ htok w4
  have h9 : parse ("~" ++ a ++ " -> " ++ b)
      = .ok (.BINARY .IMPLIES (.NOT (.ATOM a)) (.ATOM b)) := by
    have htok : tokenize (("~" ++ a ++ " -> " ++ b) : String).data
        = .ok [Token.NOT, .ATOM a, .IMPLIES, .ATOM b] := by
      have hdata : (("~" ++ a ++ " -> " ++ b) : String).data
          = '~' :: (a.data ++ (' ' :: '-' :: '>' :: ' ' :: b.data)) := by
        simp [String.data_append, show (("~" : String)).data = ['~'] from rfl,
          show ((" -> " : String)).data = [' ', '-', '>', ' '] from rfl]
      have hrest : tokenize (a.data ++ (' ' :: '-' :: '>' :: ' ' :: b.data))
          = .ok [Token.ATOM a, .IMPLIES, .ATOM b] :=
        tokenize_atom_cons a _ _ ha rfl (tok_mid_imp _ _ hb0)
      rw [hdata, tokenize_tilde, hrest]
      rfl
    have x0 : parseNotR [Token.NOT, .ATOM a, .IMPLIES, .ATOM b]
        = .ok (.NOT (.ATOM a), [.IMPLIES, .ATOM b]) :=
      parseNotR_not _ _ _ (parseNotR_atomTok a _)
    have x1 : parseAndR [Token.NOT, .ATOM a, .IMPLIES, .ATOM b]
        = .ok (.NOT (.ATOM a), [.IMPLIES, .ATOM b]) := by
      rw [parseAndR_step _ _ _ x0]
      exact parseAndLoopR_exit _ _ rfl
    have x2 : parseOrR [Token.NOT, .ATOM a, .IMPLIES, .ATOM b]
        = .ok (.NOT (.ATOM a), [.IMPLIES, .ATOM b]) := by
      rw [parseOrR_step _ _ _ x1]
      exact parseOrLoopR_exit _ _ rfl
    have x3 : parseImpliesR [Token.ATOM b] = .ok (.ATOM b, []) :=
      parseImpliesR_atom b [] rfl rfl rfl
    have x4 : parseImpliesR [Token.NOT, .ATOM a, .IMPLIES, .ATOM b]
        = .ok (.BINARY .IMPLIES (.NOT (.ATOM a)) (.ATOM b), []) :=
      parseImpliesR_imp _ _ _ _ _ x2 x3
    have x5 : parseIffR [Token.NOT, .ATOM a, .IMPLIES, .ATOM b]
        = .ok (.BINARY .IMPLIES (.NOT (.ATOM a)) (.ATOM b), []) := by
      rw [parseIffR_step _ _ _ x4]
      exact parseIffLoopR_exit _ _ rfl
    exact parse_of_parseIffR _ _ _ htok x5
  have h10 : parse ("~" ++ a ++ " <-> " ++ b)
      = .ok (.BINARY .IFF (.NOT (.ATOM a)) (.ATOM b)) := by
    have htok : tokenize (("~" ++ a ++ " <-> " ++ b) : String).data
        = .ok [Token.NOT, .ATOM a, .IFF, .ATOM b] := by
      have hdata : (("~" ++ a ++ " <-> " ++ b) : String).data
          = '~' :: (a.data ++ (' ' :: '<' :: '-' :: '>' :: ' ' :: b.data)) := by
        simp [String.data_append, show (("~" : String)).data = ['~'] from rfl,
          show ((" <-> " : String)).data = [' ', '<', '-', '>', ' '] from rfl]
      have hrest : tokenize (a.data ++ (' ' :: '<' :: '-' :: '>' :: ' ' :: b.data))
          = .ok [Token.ATOM a, .IFF, .ATOM b] :=
        tokenize_atom_cons a _ _ ha rfl (tok_mid_iff _ _ hb0)
      rw [hdata, tokenize_tilde, hrest]
      rfl
    have y0 : parseNotR [Token.NOT, .ATOM a, .IFF, .ATOM b]
        = .ok (.NOT (.ATOM a), [.IFF, .ATOM b]) :=
      parseNotR_not _ _ _ (parseNotR_atomTok a _)
    have y1 : parseAndR [Token.NOT, .ATOM a, .IFF, .ATOM b]
        = .ok (.NOT (.ATOM a), [.IFF, .ATOM b]) := by
      rw [parseAndR_step _ _ _ y0]
      exact parseAndLoopR_exit _ _ rfl
    have y2 : parseOrR [Token.NOT, .ATOM a, .IFF, .ATOM b]
        = .ok (.NOT (.ATOM a), [.IFF, .ATOM b]) := by
      rw [parseOrR_step _ _ _ y1]
      exact parseOrLoopR_exit _ _ rfl
    have y3 : parseImpliesR [Token.NOT, .ATOM a, .IFF, .ATOM b]
        = .ok (.NOT (.ATOM a), [.IFF, .ATOM b]) :=
      parseImpliesR_noimp _ _ _ y2 rfl
    have y4 : parseImpliesR [Token.ATOM b] = .ok (.ATOM b, []) :=
      parseImpliesR_atom b [] rfl rfl rfl
    have y5 : parseIffR [Token.NOT, .ATOM a, .IFF, .ATOM b]
        = .ok (.BINARY .IFF (.NOT (.ATOM a)) (.ATOM b), []) := by
      rw [parseIffR_step _ _ _ y3, parseIffLoopR_iff _ _ _ _ y4]
      exact parseIffLoopR_exit _ _ rfl
    exact parse_of_parseIffR _ _ _ htok y5
  have h11 : parse (a ++ " <-> " ++ b ++ " -> " ++ c)
      = .ok (.BINARY .IFF (.ATOM a) (.BINARY .IMPLIES (.ATOM b) (.ATOM c))) := by
    have htok : tokenize ((a ++ " <-> " ++ b ++ " -> " ++ c) : String).data
        = .ok [Token.ATOM a, .IFF, .ATOM b, .IMPLIES, .ATOM c] := by
      have hdata : ((a ++ " <-> " ++ b ++ " -> " ++ c) : String).data
          = a.data ++ (' ' :: '<' :: '-' :: '>' :: ' '
            :: (b.data ++ (' ' :: '-' :: '>' :: ' ' :: c.data))) := by
        simp [String.data_append,
          show ((" <-> " : String)).data = [' ', '<', '-', '>', ' '] from rfl,
          show ((" -> " : String)).data = [' ', '-', '>', ' '] from rfl]
      rw [hdata]
      exact tokenize_atom_cons a _ _ ha rfl
        (tok_mid_iff _ _ (tokenize_atom_cons b _ _ hb rfl (tok_mid_imp _ _ hc0)))
    have z1 : parseImpliesR [Token.ATOM a, .IFF, .ATOM b, .IMPLIES, .ATOM c]
        = .ok (.ATOM a, [.IFF, .ATOM b, .IMPLIES, .ATOM c]) :=
      parseImpliesR_atom a _ rfl rfl rfl
    have z3 : parseIffR [Token.ATOM a, .IFF, .ATOM b, .IMPLIES, .ATOM c]
        = .ok (.BINARY .IFF (.ATOM a) (.BINARY .IMPLIES (.ATOM b) (.ATOM c)), []) := by
      rw [parseIffR_step _ _ _ z1, parseIffLoopR_iff _ _ _ _ p2]
      exact parseIffLoopR_exit _ _ rfl
    exact parse_of_parseIffR _ _ _ htok z3
  have h12 : parse (a ++ " -> " ++ b ++ " | " ++ c)
      = .ok (.BINARY .IMPLIES (.ATOM a) (.BINARY .OR (.ATOM b) (.ATOM c))) := by
    have htok : tokenize ((a ++ " -> " ++ b ++ " | " ++ c) : String).data
        = .ok [Token.ATOM a, .IMPLIES, .ATOM b, .OR, .ATOM c] := by
      have hdata : ((a ++ " -> " ++ b ++ " | " ++ c) : String).data
          = a.data ++ (' ' :: '-' :: '>' :: ' '
            :: (b.data ++ (' ' :: '|' :: ' ' :: c.data))) := by
        simp [String.data_append, show ((" -> " : String)).data = [' ', '-', '>', ' '] from rfl,
          show ((" | " : String)).data = [' ', '|', ' '] from rfl]
      rw [hdata]
      exact tokenize_atom_cons a _ _ ha rfl
        (tok_mid_imp _ _ (tokenize_atom_cons b _ _ hb rfl (tok_mid_pipe _ _ hc0)))
    have aa1 : parseOrR [Token.ATOM a, .IMPLIES, .ATOM b, .OR, .ATOM c]
        = .ok (.ATOM a, [.IMPLIES, .ATOM b, .OR, .ATOM c]) := parseOrR_atom a _ rfl rfl
    have aa3 : parseOrR [Token.ATOM b, .OR, .ATOM c]
        = .ok (.BINARY .OR (.ATOM b) (.ATOM c), []) := by
      rw [parseOrR_step _ _ _ r2, parseOrLoopR_or _ _ _ _ r3]
      exact parseOrLoopR_exit _ _ rfl
    have aa4 : parseImpliesR [Token.ATOM b, .OR, .ATOM c]
        = .ok (.BINARY .OR (.ATOM b) (.ATOM c), []) :=
      parseImpliesR_noimp _ _ _ aa3 rfl
    have aa5 : parseImpliesR [Token.ATOM a, .IMPLIES, .ATOM b, .OR, .ATOM c]
        = .ok (.BINARY .IMPLIES (.ATOM a) (.BINARY .OR (.ATOM b) (.ATOM c)), []) :=
      parseImpliesR_imp _ _ _ _ _ aa1 aa4
    have aa6 : parseIffR [Token.ATOM a, .IMPLIES, .ATOM b, .OR, .ATOM c]
        = .ok (.BINARY .IMPLIES (.ATOM a) (.BINARY .OR (.ATOM b) (.ATOM c)), []) := by
      rw [parseIffR_step _ _ _ aa5]
      exact parseIffLoopR_exit _ _ rfl
    exact parse_of_parseIffR _ _ _ htok aa6
  exact ⟨h1, h2, h3, h4, h5, h6, h7, h8, h9, h10, h11, h12⟩

/-- Witness for C4 at the atom names `P`, `Q`, `R`. -/
theorem claim_C4_witness :
    validAtomName "P" = true ∧ validAtomName "Q" = true ∧ validAtomName "R" = true
    ∧ parse ("P" ++ " -> " ++ "Q" ++ " -> " ++ "R")
      = .ok (.BINARY .IMPLIES (.ATOM "P") (.BINARY .IMPLIES (.ATOM "Q") (.ATOM "R"))) :=
  ⟨by decide, by decide, by decide,
    (claim_C4_precedence_and_associativity "P" "Q" "R"
      (by decide) (by decide) (by decide)).1⟩
